import Mathlib

set_option maxRecDepth 10000

/-!
Shallow embedding of the source-map resolution engine of
`src/src/devtools.ts` (Chrome DevTools source-map provider extension):
the `LRUCache` class, the wildcard URL matcher `findMatchingConfigs`,
debug-identifier extraction, the artifact-lookup / bundle pipeline of
`processResource`, manifest resolution, and the base64 data-URI encoding.
-/

/-- JavaScript truthiness for cached values: `LRUCache.get` checks
`if (!val) return undefined;`.  The values this program stores (parsed JSON
values and opened zip archives) are JavaScript objects and hence always
truthy; the class keeps the model faithful for other value types. -/
class JsFalsy (V : Type) where
  falsy : V → Bool

instance : JsFalsy Nat := ⟨fun n => n == 0⟩

instance : JsFalsy String := ⟨fun s => s == ""⟩

/-- `class LRUCache` (devtools.ts lines 3-28): a JS `Map` used as an LRU
store.  `entries` is the `Map`'s insertion-ordered entry list with the head
oldest, exactly what `this.cache.keys().next().value` exposes. -/
structure LRUCache (K V : Type) where
  maxSize : Nat
  entries : List (K × V)
deriving DecidableEq

def LRUCache.emptyCache (K V : Type) (n : Nat) : LRUCache K V := ⟨n, []⟩

/-- `get(key)` (lines 9-15): a missing key or a JS-falsy value yields
`undefined` and leaves the map untouched; a truthy hit is deleted and
re-inserted, moving it to the most-recent end.  Returns the result together
with the updated map. -/
def LRUCache.get {K V : Type} [DecidableEq K] [JsFalsy V]
    (c : LRUCache K V) (k : K) : Option V × LRUCache K V :=
  match c.entries.find? (fun p => p.1 == k) with
  | none => (none, c)
  | some p =>
    if JsFalsy.falsy p.2 then (none, c)
    else (some p.2,
      { c with entries := c.entries.eraseP (fun q => q.1 == k) ++ [(k, p.2)] })

/-- `set(key, value)` (lines 16-24): delete any existing entry for the key
(the source's `has` guard is redundant since deleting an absent key is a
no-op), append the new entry, then if the map exceeds `maxSize` delete the
oldest key, i.e. the first one in insertion order. -/
def LRUCache.set {K V : Type} [DecidableEq K]
    (c : LRUCache K V) (k : K) (v : V) : LRUCache K V :=
  let appended := c.entries.eraseP (fun q => q.1 == k) ++ [(k, v)]
  if c.maxSize < appended.length then
    match appended with
    | [] => { c with entries := [] }
    | p :: rest => { c with entries := (p :: rest).eraseP (fun q => q.1 == p.1) }
  else { c with entries := appended }

/-- Well-formedness a JS `Map` guarantees by construction: keys are unique. -/
def LRUCache.WF {K V : Type} (c : LRUCache K V) : Prop :=
  (c.entries.map Prod.fst).Nodup

/-- Membership as observable through the underlying `Map`. -/
def LRUCache.lookup {K V : Type} [DecidableEq K]
    (c : LRUCache K V) (k : K) : Option V :=
  (c.entries.find? (fun p => p.1 == k)).map (fun p => p.2)

/-- Cache operations, for stating properties about arbitrary sequences of
`get`/`set` calls. -/
inductive CacheOp (K V : Type)
  | get (k : K)
  | set (k : K) (v : V)

def LRUCache.applyOp {K V : Type} [DecidableEq K] [JsFalsy V]
    (c : LRUCache K V) : CacheOp K V → LRUCache K V
  | .get k => (c.get k).2
  | .set k v => c.set k v

def LRUCache.applyOps {K V : Type} [DecidableEq K] [JsFalsy V]
    (c : LRUCache K V) (ops : List (CacheOp K V)) : LRUCache K V :=
  ops.foldl LRUCache.applyOp c

/-- Insert a list of (key, value) pairs left to right via `set`. -/
def LRUCache.setAll {K V : Type} [DecidableEq K]
    (c : LRUCache K V) (kvs : List (K × V)) : LRUCache K V :=
  kvs.foldl (fun c p => c.set p.1 p.2) c

/-- Line terminators the JS regex metacharacter `.` refuses to match. -/
def isLineTermChar (c : Char) : Bool :=
  c == '\n' || c == '\r' || c == '\u2028' || c == '\u2029'

/-- Matcher for the anchored regex `^p$` that `findMatchingConfigs` builds
(lines 79-81): the user pattern with every `*` replaced by `.*`, tested
against the whole url.  So `*` matches any run of non-line-terminator
characters, `.` any single non-line-terminator character, and any other
character itself.  (The modelled fragment is patterns built from literal
characters, `.` and `*`; further regex metacharacters are outside what the
claims exercise.)  `fuel` only forces structural recursion;
`p.length + s.length + 1` is always sufficient. -/
def globMatchAux : Nat → List Char → List Char → Bool
  | 0, _, _ => false
  | _ + 1, [], s => s.isEmpty
  | fuel + 1, p :: ps, s =>
    if p = '*' then
      globMatchAux fuel ps s ||
        (match s with
         | [] => false
         | c :: cs => !isLineTermChar c && globMatchAux fuel (p :: ps) cs)
    else if p = '.' then
      (match s with
       | [] => false
       | c :: cs => !isLineTermChar c && globMatchAux fuel ps cs)
    else
      (match s with
       | [] => false
       | c :: cs => p == c && globMatchAux fuel ps cs)

/-- `regex.test(url)` for the regex built from `pattern` (lines 79-81). -/
def patternMatches (url pattern : String) : Bool :=
  globMatchAux (pattern.length + url.length + 1) pattern.data url.data

/-- The stored per-project configuration (lines 38-44). -/
structure ProjectConfig where
  project : String
  projectName : String
  organization : String
  organizationName : String
  urlPattern : String
deriving DecidableEq

/-- `findMatchingConfigs` (lines 76-88): the configs whose pattern matches
the url, in stored order. -/
def findMatchingConfigs (projectConfigs : List ProjectConfig) (url : String) :
    List ProjectConfig :=
  projectConfigs.filter (fun pc => patternMatches url pc.urlPattern)

/-- Hex digits accepted by the `[0-9a-fA-F]` character class. -/
def isHexChar (c : Char) : Bool :=
  ('0' ≤ c && c ≤ '9') || ('a' ≤ c && c ≤ 'f') || ('A' ≤ c && c ≤ 'F')

/-- Take exactly `n` hex digits from the head of the list. -/
def takeHex : Nat → List Char → Option (List Char × List Char)
  | 0, cs => some ([], cs)
  | _ + 1, [] => none
  | n + 1, c :: cs =>
    if isHexChar c then (takeHex n cs).map (fun p => (c :: p.1, p.2)) else none

def expectDash : List Char → Option (List Char)
  | '-' :: cs => some cs
  | _ => none

/-- Match the capture group of the `sentry-dbid-` regex (line 130) at the
head of `cs`: hex runs of 8-4-4-4-12 separated by dashes.  The regex's `\b`
assertions each sit between a hex digit and a `-` and therefore always
hold. -/
def uuidAt (cs : List Char) : Option (List Char) :=
  (takeHex 8 cs).bind fun p1 =>
  (expectDash p1.2).bind fun r1 =>
  (takeHex 4 r1).bind fun p2 =>
  (expectDash p2.2).bind fun r2 =>
  (takeHex 4 r2).bind fun p3 =>
  (expectDash p3.2).bind fun r3 =>
  (takeHex 4 r3).bind fun p4 =>
  (expectDash p4.2).bind fun r4 =>
  (takeHex 12 r4).map fun p5 =>
  p1.1 ++ '-' :: p2.1 ++ '-' :: p3.1 ++ '-' :: p4.1 ++ '-' :: p5.1

def sentryMarker : List Char := "sentry-dbid-".data

/-- The whole `sentry-dbid-<uuid>` regex, attempted at one position. -/
def markerAt (cs : List Char) : Option (List Char) :=
  if sentryMarker.isPrefixOf cs then uuidAt (cs.drop sentryMarker.length)
  else none

/-- Leftmost search for the `sentry-dbid-<uuid>` marker (lines 129-131). -/
def findSentryDbid : List Char → Option (List Char)
  | [] => none
  | c :: cs =>
    match markerAt (c :: cs) with
    | some u => some u
    | none => findSentryDbid cs

/-- The JS `\s` whitespace class. -/
def isJsWhitespace (c : Char) : Bool :=
  c == ' ' || c == '\t' || c == '\n' || c == '\x0b' || c == '\x0c' ||
  c == '\r' || c == '\u00A0' || c == '\u1680' ||
  ('\u2000' ≤ c && c ≤ '\u200A') || c == '\u2028' || c == '\u2029' ||
  c == '\u202F' || c == '\u205F' || c == '\u3000' || c == '\uFEFF'

/-- Split into the lines between which the `m`-flag anchors `^`/`$` match. -/
def splitLines : List Char → List (List Char)
  | [] => [[]]
  | c :: cs =>
    if isLineTermChar c then [] :: splitLines cs
    else
      match splitLines cs with
      | l :: ls => (c :: l) :: ls
      | [] => [[c]]

def debugIdTag : List Char := "debugId=".data

/-- Match one line against `^\s*\/\/#\s?debugId=(.*)$` (line 138) and return
the capture.  The greedy `\s*` deterministically consumes all leading
whitespace (backtracking cannot help since `/` is not whitespace), and
`\s?` consumes at most one whitespace character after `//#`. -/
def lineDebugId (line : List Char) : Option (List Char) :=
  match line.dropWhile isJsWhitespace with
  | '/' :: '/' :: '#' :: r =>
    if debugIdTag.isPrefixOf r then some (r.drop 8)
    else
      (match r with
       | c :: r2 =>
         if isJsWhitespace c && debugIdTag.isPrefixOf r2 then some (r2.drop 8)
         else none
       | [] => none)
  | _ => none

/-- Multi-line search for the `//# debugId=` magic comment (lines 137-139):
the earliest matching line yields its capture. -/
def findDebugIdComment (cs : List Char) : Option (List Char) :=
  (splitLines cs).findSome? lineDebugId

/-- Content scan of the `getContent` callback (lines 122-146): a missing or
empty (JS-falsy) content string yields no id; otherwise the `sentry-dbid`
marker is tried on the whole text first, then the `//# debugId=` magic
comment.  (The transport decoding of line 127 is elided: `content` here is
the already-decoded text.) -/
def scanContent : Option String → Option String
  | none => none
  | some c =>
    if c = "" then none
    else
      match findSentryDbid c.data with
      | some u => some (String.mk u)
      | none => (findDebugIdComment c.data).map String.mk

/-- `resourceBuildId` (lines 118-147): the native `buildId` attribute wins
via `??` — nullish coalescing, which keeps an empty string — and only a
nullish attribute falls back to scanning the content. -/
def extractBuildId (nativeBuildId : Option String) (content : Option String) :
    Option String :=
  match nativeBuildId with
  | some b => some b
  | none => scanContent content

/-- Parsed form of a bundle URL (`new URL(bundleInfo.url)`, line 177),
restricted to the `scheme://host[:port]rest` shapes the program meets;
`rest` is the serialized path, query and fragment. -/
structure UrlParts where
  scheme : String
  host : String
  port : String
  rest : String
deriving DecidableEq

/-- Find the first `://` separator, returning the characters before and the
characters after it. -/
def breakOnScheme : List Char → Option (List Char × List Char)
  | [] => none
  | c :: cs =>
    if "://".data.isPrefixOf (c :: cs) then some ([], (c :: cs).drop 3)
    else (breakOnScheme cs).map (fun p => (c :: p.1, p.2))

def hostEndChar (c : Char) : Bool :=
  c == ':' || c == '/' || c == '?' || c == '#'

/-- The modelled `new URL(...)` parser: a nonempty scheme, `://`, a nonempty
host, an optional `:port`, and the rest of the string.  A string without
that shape throws in JS (caught by the orchestrator's `catch`), modelled as
`none`. -/
def parseUrl (s : String) : Option UrlParts :=
  match breakOnScheme s.data with
  | none => none
  | some (schemeChars, afterScheme) =>
    if schemeChars = [] then none
    else
      let host := afterScheme.takeWhile (fun c => !hostEndChar c)
      let afterHost := afterScheme.drop host.length
      if host = [] then none
      else
        match afterHost with
        | ':' :: r =>
          let port := r.takeWhile (fun c => c.isDigit)
          let rest := r.drop port.length
          some ⟨String.mk schemeChars, String.mk host, String.mk port,
            String.mk rest⟩
        | r => some ⟨String.mk schemeChars, String.mk host, "", String.mk r⟩

/-- `zipUrl.toString()` (lines 182, 185), used both as the fetch target and
as the zip-cache key. -/
def UrlParts.toUrlString (u : UrlParts) : String :=
  u.scheme ++ "://" ++ u.host ++
    (if u.port = "" then "" else ":" ++ u.port) ++ u.rest

/-- Lines 178-180: `zipUrl.hostname = "sentry.io"; zipUrl.protocol =
"https:"; zipUrl.port = "";`. -/
def normalizeZipUrl (u : UrlParts) : UrlParts :=
  { u with host := "sentry.io", scheme := "https", port := "" }

/-- One file record of the manifest (lines 198-200): `{ type, headers:
{ "debug-id" } }`; `debugId` models the `headers["debug-id"]` field. -/
structure ManifestEntry where
  type : String
  debugId : String
deriving DecidableEq

/-- Parsed `manifest.json`: `files` maps archive-relative paths to entries,
in JSON order (which `Object.entries` preserves). -/
structure Manifest where
  files : List (String × ManifestEntry)
deriving DecidableEq

/-- An opened archive: named entries whose text either reads successfully
(`some text`) or whose `async("string")` read rejects (`none`). -/
structure ZipFile where
  entries : List (String × Option String)
deriving DecidableEq

/-- `zip.file(path)` — `none` when no entry has that name. -/
def ZipFile.fileEntry (z : ZipFile) (path : String) : Option (Option String) :=
  (z.entries.find? (fun p => p.1 == path)).map (fun p => p.2)

/-- The distinct ways lines 191-223 can fail to produce map text. -/
inductive MapFailure
  | noManifest
  | manifestReadError
  | manifestParseError
  | noMatchingMap
  | mapReadError
  | noMapContent
deriving DecidableEq

/-- Manifest resolution (lines 191-223): read the `manifest.json` entry
(`!manifestStringContent` treats a missing entry and empty text alike, and a
rejected read throws into the orchestrator's `catch`); parse it; find the
first file entry whose `type` is `"source_map"` and whose `debug-id` header
equals the requested id; read that entry's text, with the same falsy check.
`jsonParse` stands for the host's `JSON.parse` producing the typed shape of
lines 198-200, or failing. -/
def resolveMapText (jsonParse : String → Option Manifest) (zip : ZipFile)
    (buildId : String) : Except MapFailure String :=
  match zip.fileEntry "manifest.json" with
  | none => .error .noManifest
  | some none => .error .manifestReadError
  | some (some mc) =>
    if mc = "" then .error .noManifest
    else
      match jsonParse mc with
      | none => .error .manifestParseError
      | some manifest =>
        match manifest.files.find?
            (fun p => p.2.type == "source_map" && p.2.debugId == buildId) with
        | none => .error .noMatchingMap
        | some entry =>
          match zip.fileEntry entry.1 with
          | none => .error .noMapContent
          | some none => .error .mapReadError
          | some (some s) =>
            if s = "" then .error .noMapContent else .ok s

/-- UTF-8 encoding of one scalar value, written with `/` and `%` on `Nat`.
This is the byte sequence `unescape(encodeURIComponent(·))` exposes as
characters. -/
def utf8EncodeChar (c : Char) : List Nat :=
  let v := c.toNat
  if v < 0x80 then [v]
  else if v < 0x800 then [0xc0 + v / 64, 0x80 + v % 64]
  else if v < 0x10000 then
    [0xe0 + v / 4096, 0x80 + v / 64 % 64, 0x80 + v % 64]
  else
    [0xf0 + v / 0x40000, 0x80 + v / 4096 % 64, 0x80 + v / 64 % 64,
      0x80 + v % 64]

def utf8Encode : List Char → List Nat
  | [] => []
  | c :: cs => utf8EncodeChar c ++ utf8Encode cs

/-- A standard strict UTF-8 decoder, used to state the round-trip claim. -/
def utf8Decode : List Nat → Option (List Char)
  | [] => some []
  | b :: bs =>
    if b < 0x80 then (utf8Decode bs).map (fun cs => Char.ofNat b :: cs)
    else if b < 0xc0 then none
    else if b < 0xe0 then
      match bs with
      | [] => none
      | b2 :: rest =>
        if 0x80 ≤ b2 ∧ b2 < 0xc0 then
          if 0x80 ≤ (b - 0xc0) * 64 + (b2 - 0x80) then
            (utf8Decode rest).map
              (fun cs => Char.ofNat ((b - 0xc0) * 64 + (b2 - 0x80)) :: cs)
          else none
        else none
    else if b < 0xf0 then
      match bs with
      | [] => none
      | b2 :: bs2 =>
        match bs2 with
        | [] => none
        | b3 :: rest =>
          if (0x80 ≤ b2 ∧ b2 < 0xc0) ∧ (0x80 ≤ b3 ∧ b3 < 0xc0) then
            if 0x800 ≤ (b - 0xe0) * 4096 + (b2 - 0x80) * 64 + (b3 - 0x80) ∧
                ¬(0xd800 ≤ (b - 0xe0) * 4096 + (b2 - 0x80) * 64 + (b3 - 0x80) ∧
                  (b - 0xe0) * 4096 + (b2 - 0x80) * 64 + (b3 - 0x80) < 0xe000) then
              (utf8Decode rest).map
                (fun cs =>
                  Char.ofNat ((b - 0xe0) * 4096 + (b2 - 0x80) * 64 + (b3 - 0x80)) :: cs)
            else none
          else none
    else if b < 0xf8 then
      match bs with
      | [] => none
      | b2 :: bs2 =>
        match bs2 with
        | [] => none
        | b3 :: bs3 =>
          match bs3 with
          | [] => none
          | b4 :: rest =>
            if (0x80 ≤ b2 ∧ b2 < 0xc0) ∧ (0x80 ≤ b3 ∧ b3 < 0xc0) ∧
                (0x80 ≤ b4 ∧ b4 < 0xc0) then
              if 0x10000 ≤ (b - 0xf0) * 0x40000 + (b2 - 0x80) * 4096 +
                    (b3 - 0x80) * 64 + (b4 - 0x80) ∧
                  (b - 0xf0) * 0x40000 + (b2 - 0x80) * 4096 +
                    (b3 - 0x80) * 64 + (b4 - 0x80) < 0x110000 then
                (utf8Decode rest).map
                  (fun cs =>
                    Char.ofNat ((b - 0xf0) * 0x40000 + (b2 - 0x80) * 4096 +
                      (b3 - 0x80) * 64 + (b4 - 0x80)) :: cs)
              else none
            else none
    else none

def b64Alphabet : List Char :=
  "ABCDEFGHIJKLMNOPQRSTUVWXYZabcdefghijklmnopqrstuvwxyz0123456789+/".data

def b64Char (n : Nat) : Char := b64Alphabet.getD n 'A'

def b64Index (c : Char) : Option Nat := b64Alphabet.findIdx? (· == c)

/-- `btoa` on the UTF-8 byte string: standard base64 with `=` padding. -/
def base64Encode : List Nat → List Char
  | [] => []
  | [b] => [b64Char (b / 4), b64Char (b % 4 * 16), '=', '=']
  | [b, c] => [b64Char (b / 4), b64Char (b % 4 * 16 + c / 16),
      b64Char (c % 16 * 4), '=']
  | b :: c :: d :: rest =>
    b64Char (b / 4) :: b64Char (b % 4 * 16 + c / 16) ::
      b64Char (c % 16 * 4 + d / 64) :: b64Char (d % 64) :: base64Encode rest

/-- A standard strict base64 decoder, used to state the round-trip claim. -/
def base64Decode : List Char → Option (List Nat)
  | [] => some []
  | c1 :: c2 :: c3 :: c4 :: rest =>
    if c3 = '=' ∧ c4 = '=' ∧ rest = [] then
      (b64Index c1).bind fun e1 => (b64Index c2).bind fun e2 =>
        if e2 % 16 = 0 then some [e1 * 4 + e2 / 16] else none
    else if c4 = '=' ∧ rest = [] then
      (b64Index c1).bind fun e1 => (b64Index c2).bind fun e2 =>
        (b64Index c3).bind fun e3 =>
          if e3 % 4 = 0 then some [e1 * 4 + e2 / 16, e2 % 16 * 16 + e3 / 4]
          else none
    else
      (b64Index c1).bind fun e1 => (b64Index c2).bind fun e2 =>
        (b64Index c3).bind fun e3 => (b64Index c4).bind fun e4 =>
          (base64Decode rest).map fun bs =>
            (e1 * 4 + e2 / 16) :: (e2 % 16 * 16 + e3 / 4) ::
              (e3 % 4 * 64 + e4) :: bs
  | _ => none

/-- `btoa(unescape(encodeURIComponent(s)))` (lines 225-227). -/
def base64SourceMap (s : String) : String :=
  String.mk (base64Encode (utf8Encode s.data))

/-- The attached `data:` URI (line 231). -/
def dataUriFor (s : String) : String :=
  "data:application/json;base64," ++ base64SourceMap s

/-- Decode a produced payload back to text: base64, then UTF-8. -/
def decodePayloadToText (payload : String) : Option String :=
  (base64Decode payload.data).bind fun bs =>
    (utf8Decode bs).map fun cs => String.mk cs

/-- A resource-added event's resource: its `type` tag, its optional native
`buildId` attribute, and the (already transport-decoded) text its
`getContent` callback supplies, with `none` for a JS-falsy `content`. -/
structure Resource where
  type : String
  buildId : Option String
  content : Option String
deriving DecidableEq

/-- The possible outcomes of one `fetch`: the promise rejects, or a response
arrives whose payload either parses (`some`) or fails to parse / unzip
(`none`).  The code never reads the HTTP `status`, so it is carried only so
that claims can speak about non-success responses. -/
inductive FetchOutcome (α : Type)
  | netError
  | response (status : Nat) (body : Option α)
deriving DecidableEq

structure Bundle where
  url : String
deriving DecidableEq

/-- The JSON body of an artifact-lookup response as the code consumes it:
an array of bundle records, or any other JSON value (`other`, e.g. the
`{"detail": ...}` error object Sentry sends with non-success statuses), on
which the code's `[0]` indexing yields `undefined`. -/
inductive LookupJson
  | arr (bundles : List Bundle)
  | other
deriving DecidableEq

def LookupJson.firstBundle : LookupJson → Option Bundle
  | .arr (b :: _) => some b
  | .arr [] => none
  | .other => none

instance : JsFalsy LookupJson := ⟨fun _ => false⟩

instance : JsFalsy ZipFile := ⟨fun _ => false⟩

/-- The world a single `processResource` run observes: the inspected tab's
URL (`none` for a missing tab or url), the loaded configuration
(`sentryAuthToken` is `none` for the falsy tokens `loadConfig` maps to
`null`), the network, and the host's `JSON.parse`. -/
structure Env where
  tabUrl : Option String
  sentryAuthToken : Option String
  projectConfigs : List ProjectConfig
  lookupNet : String → FetchOutcome LookupJson
  zipNet : String → FetchOutcome ZipFile
  jsonParse : String → Option Manifest

/-- Where one `processResource` run stops, or the attached URI. -/
inductive Outcome
  | noTab
  | noToken
  | notScript
  | noConfig
  | noBuildId
  | lookupNetError
  | lookupBadJson
  | noBundle
  | badBundleUrl
  | zipNetError
  | badZipPayload
  | mapFailed (f : MapFailure)
  | attached (uri : String)
deriving DecidableEq

/-- The two module-level caches (lines 30-31). -/
structure Caches where
  zipCache : LRUCache String ZipFile
  artifactCache : LRUCache String LookupJson
deriving DecidableEq

/-- One run's outcome, final cache state, fetched URLs per endpoint, and
`attachSourceMapURL` calls. -/
structure RunResult where
  outcome : Outcome
  caches : Caches
  lookupFetches : List String
  zipFetches : List String
  attaches : List String
deriving DecidableEq

/-- Line 160. -/
def mkLookupUrl (orgSlug projectSlug buildId : String) : String :=
  "https://sentry.io/api/0/projects/" ++ orgSlug ++ "/" ++ projectSlug ++
    "/artifact-lookup/?debug_id=" ++ buildId

/-- Lines 96-151: the guard chain before the `try` block; first failure
wins.  `!resourceBuildId` also rejects an empty-string id. -/
def earlyGates (env : Env) (res : Resource) :
    Except Outcome (ProjectConfig × String) :=
  match env.tabUrl with
  | none => .error .noTab
  | some tabUrl =>
    if tabUrl = "" then .error .noTab
    else
      match env.sentryAuthToken with
      | none => .error .noToken
      | some _ =>
        if res.type ≠ "script" then .error .notScript
        else
          match findMatchingConfigs env.projectConfigs tabUrl with
          | [] => .error .noConfig
          | cfg :: _ =>
            match extractBuildId res.buildId res.content with
            | none => .error .noBuildId
            | some id =>
              if id = "" then .error .noBuildId
              else .ok (cfg, id)

/-- Lines 162-170: consult the lookup cache; on a miss fetch, parse, and
cache the parsed body.  The HTTP status is never inspected, so any response
with a well-formed JSON body — success or not — is cached. -/
def lookupStage (env : Env) (url : String) (ac : LRUCache String LookupJson) :
    Except (Outcome × List String)
      (LookupJson × LRUCache String LookupJson × List String) :=
  match ac.get url with
  | (some j, ac1) => .ok (j, ac1, [])
  | (none, ac1) =>
    match env.lookupNet url with
    | .netError => .error (.lookupNetError, [url])
    | .response _ none => .error (.lookupBadJson, [url])
    | .response _ (some j) => .ok (j, ac1.set url j, [url])

/-- Lines 182-189: same structure for the bundle archive. -/
def zipStage (env : Env) (url : String) (zc : LRUCache String ZipFile) :
    Except (Outcome × List String)
      (ZipFile × LRUCache String ZipFile × List String) :=
  match zc.get url with
  | (some z, zc1) => .ok (z, zc1, [])
  | (none, zc1) =>
    match env.zipNet url with
    | .netError => .error (.zipNetError, [url])
    | .response _ none => .error (.badZipPayload, [url])
    | .response _ (some z) => .ok (z, zc1.set url z, [url])

/-- Lines 172-232: from the parsed lookup body to the attach call.  Indexing
`[0]`, URL normalization, the zip cache and fetch, and manifest resolution.
Returns the outcome, the zip cache, the zip fetches, and the attach calls. -/
def bundleStage (env : Env) (buildId : String) (j : LookupJson)
    (zc : LRUCache String ZipFile) :
    Outcome × LRUCache String ZipFile × List String × List String :=
  match j.firstBundle with
  | none => (.noBundle, zc, [], [])
  | some bundle =>
    match parseUrl bundle.url with
    | none => (.badBundleUrl, zc, [], [])
    | some parts =>
      match zipStage env ((normalizeZipUrl parts).toUrlString) zc with
      | .error (o, zf) => (o, zc, zf, [])
      | .ok (z, zc2, zf) =>
        match resolveMapText env.jsonParse z buildId with
        | .error f => (.mapFailed f, zc2, zf, [])
        | .ok s => (.attached (dataUriFor s), zc2, zf, [dataUriFor s])

/-- `processResource` (lines 93-236), composed from the stages above. -/
def processResource (env : Env) (res : Resource) (caches : Caches) :
    RunResult :=
  match earlyGates env res with
  | .error o => ⟨o, caches, [], [], []⟩
  | .ok (cfg, buildId) =>
    match lookupStage env (mkLookupUrl cfg.organization cfg.project buildId)
        caches.artifactCache with
    | .error (o, lf) => ⟨o, caches, lf, [], []⟩
    | .ok (j, ac2, lf) =>
      match bundleStage env buildId j caches.zipCache with
      | (o, zc2, zf, att) => ⟨o, ⟨zc2, ac2⟩, lf, zf, att⟩

/-! ### Lemmas about the `LRUCache` model -/

def LRUCache.keys {K V : Type} (c : LRUCache K V) : List K :=
  c.entries.map Prod.fst

theorem List.keys_eraseP_key {K V : Type} [DecidableEq K]
    (l : List (K × V)) (k : K) :
    (l.eraseP (fun q => q.1 == k)).map Prod.fst =
      (l.map Prod.fst).eraseP (fun x => x == k) := by
  rw [List.eraseP_map]
  rfl

theorem List.not_mem_eraseP_self {K : Type} [DecidableEq K]
    (l : List K) (k : K) (h : l.Nodup) : k ∉ l.eraseP (fun x => x == k) := by
  induction l with
  | nil => simp
  | cons a l ih =>
    rcases List.nodup_cons.mp h with ⟨ha, hl⟩
    by_cases hak : a = k
    · subst hak
      rw [List.eraseP_cons_of_pos (by simp)]
      exact ha
    · rw [List.eraseP_cons_of_neg (by simp [hak])]
      intro hmem
      rcases List.mem_cons.mp hmem with rfl | hmem
      · exact hak rfl
      · exact ih hl hmem

theorem List.nodup_keys_update {K V : Type} [DecidableEq K]
    (l : List (K × V)) (k : K) (v : V) (h : (l.map Prod.fst).Nodup) :
    ((l.eraseP (fun q => q.1 == k) ++ [(k, v)]).map Prod.fst).Nodup := by
  rw [List.map_append, List.keys_eraseP_key]
  refine List.Nodup.append ?_ (by simp) ?_
  · exact (List.eraseP_sublist _).nodup h
  · intro a ha hb
    simp only [List.map_cons, List.map_nil, List.mem_singleton] at hb
    subst hb
    exact List.not_mem_eraseP_self _ _ h ha

theorem LRUCache.lookup_eq_none_of_not_mem {K V : Type} [DecidableEq K]
    (c : LRUCache K V) (k : K) (h : k ∉ c.keys) : c.lookup k = none := by
  unfold LRUCache.lookup
  rw [List.find?_eq_none.mpr]
  · rfl
  · intro p hp hpk
    exact h (List.mem_map.mpr ⟨p, hp, by simpa using hpk⟩)

theorem LRUCache.eraseP_entries_of_not_mem {K V : Type} [DecidableEq K]
    (c : LRUCache K V) (k : K) (h : k ∉ c.keys) :
    c.entries.eraseP (fun q => q.1 == k) = c.entries := by
  refine List.eraseP_of_forall_not ?_
  intro p hp hpk
  exact h (List.mem_map.mpr ⟨p, hp, by simpa using hpk⟩)

theorem LRUCache.maxSize_set {K V : Type} [DecidableEq K]
    (c : LRUCache K V) (k : K) (v : V) : (c.set k v).maxSize = c.maxSize := by
  unfold LRUCache.set
  dsimp only
  split
  · split <;> rfl
  · rfl

theorem LRUCache.maxSize_get {K V : Type} [DecidableEq K] [JsFalsy V]
    (c : LRUCache K V) (k : K) : ((c.get k).2).maxSize = c.maxSize := by
  unfold LRUCache.get
  split
  · rfl
  · split <;> rfl

theorem LRUCache.wf_set {K V : Type} [DecidableEq K]
    (c : LRUCache K V) (k : K) (v : V) (h : c.WF) : (c.set k v).WF := by
  unfold LRUCache.set
  dsimp only
  have hup := List.nodup_keys_update c.entries k v h
  split
  · split
    · exact List.nodup_nil
    · rename_i p rest heq
      unfold LRUCache.WF
      dsimp only
      rw [List.eraseP_cons_of_pos (by simp)]
      rw [heq] at hup
      exact (List.nodup_cons.mp hup).2
  · exact hup

theorem LRUCache.wf_get {K V : Type} [DecidableEq K] [JsFalsy V]
    (c : LRUCache K V) (k : K) (h : c.WF) : ((c.get k).2).WF := by
  unfold LRUCache.get
  split
  · exact h
  · rename_i p _
    split
    · exact h
    · exact List.nodup_keys_update c.entries k p.2 h

theorem LRUCache.length_set_le {K V : Type} [DecidableEq K]
    (c : LRUCache K V) (k : K) (v : V) (h : c.entries.length ≤ c.maxSize) :
    (c.set k v).entries.length ≤ c.maxSize := by
  unfold LRUCache.set
  dsimp only
  have hle : (c.entries.eraseP (fun q => q.1 == k)).length ≤ c.entries.length :=
    (List.eraseP_sublist _).length_le
  split
  · rename_i hgt
    split
    · simp
    · rename_i p rest heq
      rw [List.eraseP_cons_of_pos (by simp)]
      show rest.length ≤ c.maxSize
      have hlen : (p :: rest).length = (c.entries.eraseP (fun q => q.1 == k)).length + 1 := by
        rw [← heq]
        simp
      simp only [List.length_cons] at hlen
      omega
  · rename_i hng
    simpa using Nat.le_of_not_lt hng

theorem LRUCache.length_get_le {K V : Type} [DecidableEq K] [JsFalsy V]
    (c : LRUCache K V) (k : K) (h : c.entries.length ≤ c.maxSize) :
    ((c.get k).2).entries.length ≤ c.maxSize := by
  unfold LRUCache.get
  split
  · exact h
  · rename_i p hf
    split
    · exact h
    · have hmem := List.mem_of_find?_eq_some hf
      have hpk := List.find?_some hf
      have hlen := List.length_eraseP_add_one (p := fun q => q.1 == k) hmem hpk
      show (c.entries.eraseP (fun q => q.1 == k) ++ [(k, p.2)]).length ≤ c.maxSize
      simp only [List.length_append, List.length_cons, List.length_nil]
      omega

theorem List.find?_key_append_self {K V : Type} [DecidableEq K]
    (E : List (K × V)) (k : K) (v : V)
    (hnone : E.find? (fun q => q.1 == k) = none) :
    (E ++ [(k, v)]).find? (fun q => q.1 == k) = some (k, v) := by
  rw [List.find?_append, hnone]
  simp [List.find?]

theorem List.find?_key_eraseP_none {K V : Type} [DecidableEq K]
    (l : List (K × V)) (k : K) (h : (l.map Prod.fst).Nodup) :
    (l.eraseP (fun q => q.1 == k)).find? (fun q => q.1 == k) = none := by
  rw [List.find?_eq_none]
  intro x hx hxk
  have hkmem : k ∈ (l.eraseP (fun q => q.1 == k)).map Prod.fst :=
    List.mem_map.mpr ⟨x, hx, by simpa using hxk⟩
  rw [List.keys_eraseP_key] at hkmem
  exact List.not_mem_eraseP_self _ _ h hkmem

theorem LRUCache.get_of_lookup_none {K V : Type} [DecidableEq K] [JsFalsy V]
    (c : LRUCache K V) (k : K) (h : c.lookup k = none) :
    c.get k = (none, c) := by
  unfold LRUCache.get
  split
  · rfl
  · rename_i p hf
    unfold LRUCache.lookup at h
    rw [hf] at h
    simp at h

theorem LRUCache.get_of_lookup_some {K V : Type} [DecidableEq K] [JsFalsy V]
    (c : LRUCache K V) (k : K) (v : V) (h : c.lookup k = some v)
    (hv : JsFalsy.falsy v = false) :
    c.get k = (some v,
      { c with entries := c.entries.eraseP (fun q => q.1 == k) ++ [(k, v)] }) := by
  unfold LRUCache.lookup at h
  unfold LRUCache.get
  split
  · rename_i hf
    rw [hf] at h
    simp at h
  · rename_i p hf
    rw [hf] at h
    simp only [Option.map_some'] at h
    have h2 : p.2 = v := by injection h
    subst h2
    simp [hv]

theorem LRUCache.lookup_set_self {K V : Type} [DecidableEq K]
    (c : LRUCache K V) (k : K) (v : V) (hwf : c.WF) (hmax : 1 ≤ c.maxSize) :
    (c.set k v).lookup k = some v := by
  have hnone := List.find?_key_eraseP_none c.entries k hwf
  unfold LRUCache.set
  dsimp only
  split
  · rename_i hgt
    split
    · rename_i heq
      exact absurd heq (by simp)
    · rename_i p rest heq
      rw [List.eraseP_cons_of_pos (by simp)]
      rcases hE : c.entries.eraseP (fun q => q.1 == k) with _ | ⟨e0, E⟩
      · rw [hE] at heq hgt
        simp at heq hgt
        omega
      · rw [hE] at heq hnone
        simp only [List.cons_append] at heq
        have hp : p = e0 := (List.cons.injEq _ _ _ _ ▸ heq).1.symm
        have hrest : rest = E ++ [(k, v)] := by
          have := (List.cons.injEq _ _ _ _ ▸ heq).2
          exact this.symm
        subst hp hrest
        have hEnone : E.find? (fun q => q.1 == k) = none := by
          rw [List.find?_eq_none] at hnone ⊢
          intro x hx
          exact hnone x (List.mem_cons_of_mem _ hx)
        unfold LRUCache.lookup
        rw [List.find?_key_append_self E k v hEnone]
        rfl
  · unfold LRUCache.lookup
    rw [List.find?_key_append_self _ k v hnone]
    rfl

theorem LRUCache.lookup_get_self {K V : Type} [DecidableEq K] [JsFalsy V]
    (c : LRUCache K V) (k : K) (v : V) (hwf : c.WF) (h : c.lookup k = some v)
    (hv : JsFalsy.falsy v = false) :
    ((c.get k).2).lookup k = some v := by
  rw [LRUCache.get_of_lookup_some c k v h hv]
  unfold LRUCache.lookup
  rw [List.find?_key_append_self _ k v (List.find?_key_eraseP_none c.entries k hwf)]
  rfl

theorem LRUCache.applyOps_bound {K V : Type} [DecidableEq K] [JsFalsy V]
    (ops : List (CacheOp K V)) (c : LRUCache K V)
    (h : c.entries.length ≤ c.maxSize) :
    (c.applyOps ops).entries.length ≤ c.maxSize ∧
      (c.applyOps ops).maxSize = c.maxSize := by
  induction ops generalizing c with
  | nil => exact ⟨h, rfl⟩
  | cons op rest ih =>
    have hstep : c.applyOps (op :: rest) = (c.applyOp op).applyOps rest := rfl
    have hmax : (c.applyOp op).maxSize = c.maxSize := by
      cases op with
      | get k => exact LRUCache.maxSize_get c k
      | set k v => exact LRUCache.maxSize_set c k v
    have hlen : (c.applyOp op).entries.length ≤ (c.applyOp op).maxSize := by
      rw [hmax]
      cases op with
      | get k => exact LRUCache.length_get_le c k h
      | set k v => exact LRUCache.length_set_le c k v h
    rcases ih (c.applyOp op) hlen with ⟨h1, h2⟩
    rw [hstep]
    exact ⟨by rw [← hmax]; exact h1, by rw [h2, hmax]⟩

theorem LRUCache.setAll_fresh {K V : Type} [DecidableEq K]
    (kvs : List (K × V)) (c : LRUCache K V)
    (hdisj : ∀ a ∈ kvs.map Prod.fst, a ∉ c.keys)
    (hnodup : (kvs.map Prod.fst).Nodup)
    (hlen : c.entries.length ≤ c.maxSize) :
    c.setAll kvs =
      ⟨c.maxSize,
        (c.entries ++ kvs).drop (c.entries.length + kvs.length - c.maxSize)⟩ := by
  induction kvs generalizing c with
  | nil =>
    have h0 : c.entries.length + ([] : List (K × V)).length - c.maxSize = 0 := by
      simp only [List.length_nil, Nat.add_zero]
      omega
    rw [h0]
    simp [LRUCache.setAll]
  | cons kv rest ih =>
    obtain ⟨k, v⟩ := kv
    have hkfresh : k ∉ c.keys := hdisj k (by simp)
    have hera : c.entries.eraseP (fun q => q.1 == k) = c.entries :=
      LRUCache.eraseP_entries_of_not_mem c k hkfresh
    have hnodup' : (rest.map Prod.fst).Nodup :=
      (List.nodup_cons.mp (by simpa using hnodup)).2
    have hknotr : k ∉ rest.map Prod.fst :=
      (List.nodup_cons.mp (by simpa using hnodup)).1
    have hstep : c.setAll ((k, v) :: rest) = (c.set k v).setAll rest := rfl
    rw [hstep]
    by_cases hc : c.maxSize < c.entries.length + 1
    · -- the insertion overflows: the oldest entry is evicted
      rcases hE : c.entries with _ | ⟨e0, E⟩
      · -- empty cache, so maxSize = 0 and the new entry itself is evicted
        have hm0 : c.maxSize = 0 := by
          rw [hE] at hc
          simp at hc
          omega
        have hset : c.set k v = ⟨c.maxSize, []⟩ := by
          unfold LRUCache.set
          dsimp only
          rw [hera, hE]
          rw [if_pos (by simp [hm0])]
          simp
        rw [hset]
        have ih' := ih ⟨c.maxSize, []⟩ (by simp [LRUCache.keys]) hnodup' (by simp)
        rw [ih']
        simp [hm0, List.drop_succ_cons, List.drop_length]
      · -- full cache: the head is evicted and the new entry appended
        have hmax_eq : c.maxSize = E.length + 1 := by
          rw [hE] at hc hlen
          simp at hc hlen
          omega
        have hset : c.set k v = ⟨c.maxSize, E ++ [(k, v)]⟩ := by
          unfold LRUCache.set
          dsimp only
          rw [hera, hE]
          rw [if_pos (by
            simp only [List.cons_append, List.length_cons, List.length_append,
              List.length_nil]
            omega)]
          simp only [List.cons_append]
          rw [List.eraseP_cons_of_pos (by simp)]
        rw [hset]
        have hdisj' : ∀ a ∈ rest.map Prod.fst,
            a ∉ (LRUCache.mk c.maxSize (E ++ [(k, v)]) : LRUCache K V).keys := by
          intro a ha
          have h1 : a ∉ c.keys := hdisj a (by simp [ha])
          have h2 : a ≠ k := fun h => hknotr (h ▸ ha)
          unfold LRUCache.keys at h1 ⊢
          rw [hE] at h1
          simp only [List.map_append, List.map_cons, List.map_nil,
            List.mem_append, List.mem_singleton, List.mem_cons] at h1 ⊢
          rintro (hmem | hk)
          · exact h1 (Or.inr hmem)
          · rcases hk with rfl | hk0
            · exact h2 rfl
            · exact (List.not_mem_nil a) hk0
        have ih' := ih ⟨c.maxSize, E ++ [(k, v)]⟩ hdisj' hnodup' (by
          simp only [List.length_append, List.length_cons, List.length_nil]
          omega)
        rw [ih']
        simp only [List.length_append, List.length_cons, List.length_nil,
          List.append_assoc, List.singleton_append, List.cons_append,
          List.nil_append]
        have hidx : E.length + (1 + 0) + rest.length - c.maxSize = rest.length := by
          omega
        have hidx2 : E.length + 1 + (rest.length + 1) - c.maxSize =
            rest.length + 1 := by omega
        rw [hidx, hidx2, List.drop_succ_cons]
    · -- room left: the new entry is appended and nothing is evicted
      have hset : c.set k v = ⟨c.maxSize, c.entries ++ [(k, v)]⟩ := by
        unfold LRUCache.set
        dsimp only
        rw [hera]
        rw [if_neg (by
          simp only [List.length_append, List.length_cons, List.length_nil]
          omega)]
      rw [hset]
      have hdisj' : ∀ a ∈ rest.map Prod.fst,
          a ∉ (LRUCache.mk c.maxSize (c.entries ++ [(k, v)]) : LRUCache K V).keys := by
        intro a ha
        have h1 : a ∉ c.keys := hdisj a (by simp [ha])
        have h2 : a ≠ k := fun h => hknotr (h ▸ ha)
        unfold LRUCache.keys at h1 ⊢
        simp only [List.map_append, List.map_cons, List.map_nil,
          List.mem_append, List.mem_singleton]
        rintro (hmem | rfl)
        · exact h1 hmem
        · exact h2 rfl
      have ih' := ih ⟨c.maxSize, c.entries ++ [(k, v)]⟩ hdisj' hnodup' (by
        simp only [List.length_append, List.length_cons, List.length_nil]
        omega)
      rw [ih']
      simp only [List.length_append, List.length_cons, List.length_nil,
        List.append_assoc, List.singleton_append]
      have hidx : c.entries.length + 1 + rest.length - c.maxSize =
          c.entries.length + (rest.length + 1) - c.maxSize := by omega
      rw [hidx]

/-! ### Lemmas about the pattern matcher -/

/-- Characters with no special meaning in a JS regular expression (the
fragment in which a user pattern without `*` denotes itself). -/
def isRegexLiteralChar (c : Char) : Bool :=
  !(c == '.' || c == '*' || c == '+' || c == '?' || c == '^' || c == '$' ||
    c == '(' || c == ')' || c == '[' || c == ']' || c == '{' || c == '}' ||
    c == '|' || c == '\\')

theorem globMatchAux_literal (p : List Char) :
    ∀ (s : List Char) (fuel : Nat), p.length + s.length < fuel →
      (∀ c ∈ p, isRegexLiteralChar c = true) →
      (globMatchAux fuel p s = true ↔ p = s) := by
  induction p with
  | nil =>
    intro s fuel hfuel _
    cases fuel with
    | zero => omega
    | succ f =>
      cases s <;> simp [globMatchAux]
  | cons c ps ih =>
    intro s fuel hfuel hlit
    cases fuel with
    | zero => omega
    | succ f =>
      have hc : isRegexLiteralChar c = true := hlit c (by simp)
      have hstar : ¬(c = '*') := by
        intro h
        subst h
        simp [isRegexLiteralChar] at hc
      have hdot : ¬(c = '.') := by
        intro h
        subst h
        simp [isRegexLiteralChar] at hc
      show (if c = '*' then _ else if c = '.' then _ else _) = true ↔ _
      rw [if_neg hstar, if_neg hdot]
      cases s with
      | nil => simp
      | cons d ds =>
        have hih := ih ds f (by
          simp only [List.length_cons] at hfuel ⊢
          omega) (fun x hx => hlit x (List.mem_cons_of_mem _ hx))
        simp [hih, List.cons.injEq, Bool.and_eq_true, beq_iff_eq]

theorem globMatchAux_star (s : List Char) :
    ∀ fuel : Nat, s.length + 2 ≤ fuel →
      (globMatchAux fuel "*".data s = true ↔
        ∀ c ∈ s, isLineTermChar c = false) := by
  induction s with
  | nil =>
    intro fuel hfuel
    match fuel, hfuel with
    | f + 2, _ => simp [globMatchAux]
  | cons c cs ih =>
    intro fuel hfuel
    match fuel, hfuel with
    | f + 2, hf =>
      have hih := ih (f + 1) (by
        simp only [List.length_cons] at hf
        omega)
      show (if '*' = '*' then _ else _) = true ↔ _
      rw [if_pos rfl]
      have hempty : globMatchAux (f + 1) [] (c :: cs) = false := by
        simp [globMatchAux]
      show (globMatchAux (f + 1) [] (c :: cs) ||
        (!isLineTermChar c && globMatchAux (f + 1) ('*' :: []) cs)) = true ↔ _
      rw [hempty]
      simp only [Bool.false_or, Bool.and_eq_true, Bool.not_eq_true']
      constructor
      · rintro ⟨h1, h2⟩ x hx
        rcases List.mem_cons.mp hx with rfl | hx
        · exact h1
        · exact (hih.mp h2) x hx
      · intro h
        exact ⟨h c (by simp), hih.mpr (fun x hx => h x (List.mem_cons_of_mem _ hx))⟩

/-! ### Lemmas about debug-identifier extraction -/

theorem takeHex_sound : ∀ (n : Nat) (cs g r : List Char),
    takeHex n cs = some (g, r) →
      g.length = n ∧ cs = g ++ r ∧ ∀ c ∈ g, isHexChar c = true := by
  intro n
  induction n with
  | zero =>
    intro cs g r h
    unfold takeHex at h
    injection h with h
    obtain ⟨h1, h2⟩ := Prod.mk.injEq _ _ _ _ ▸ h
    exact ⟨by rw [← h1]; rfl, by rw [← h1, ← h2]; rfl, by rw [← h1]; simp⟩
  | succ n ih =>
    intro cs g r h
    cases cs with
    | nil => exact absurd h (by simp [takeHex])
    | cons c cs' =>
      unfold takeHex at h
      by_cases hc : isHexChar c = true
      · rw [if_pos hc, Option.map_eq_some'] at h
        obtain ⟨⟨g', r'⟩, hg', heq⟩ := h
        obtain ⟨h1, h2⟩ := Prod.mk.injEq _ _ _ _ ▸ heq
        obtain ⟨hl, hcs, hhex⟩ := ih cs' g' r' hg'
        subst h2
        refine ⟨?_, ?_, ?_⟩
        · rw [← h1]
          simp [hl]
        · rw [← h1, hcs]
          rfl
        · rw [← h1]
          intro x hx
          rcases List.mem_cons.mp hx with rfl | hx
          · exact hc
          · exact hhex x hx
      · rw [if_neg hc] at h
        cases h

theorem takeHex_complete : ∀ (g r : List Char),
    (∀ c ∈ g, isHexChar c = true) → takeHex g.length (g ++ r) = some (g, r) := by
  intro g
  induction g with
  | nil => intro r _; rfl
  | cons c g' ih =>
    intro r hhex
    show takeHex (g'.length + 1) (c :: (g' ++ r)) = _
    unfold takeHex
    rw [if_pos (hhex c (by simp))]
    rw [ih r (fun x hx => hhex x (List.mem_cons_of_mem _ hx))]
    rfl

theorem expectDash_sound (l r : List Char) (h : expectDash l = some r) :
    l = '-' :: r := by
  unfold expectDash at h
  split at h
  · rename_i cs
    injection h with h
    rw [h]
  · cases h

theorem uuidAt_sound (cs u : List Char) (h : uuidAt cs = some u) :
    ∃ r, cs = u ++ r ∧ u.length = 36 ∧
      ∀ c ∈ u, isHexChar c = true ∨ c = '-' := by
  unfold uuidAt at h
  rw [Option.bind_eq_some] at h
  obtain ⟨⟨g1, r1⟩, h1, h⟩ := h
  rw [Option.bind_eq_some] at h
  obtain ⟨d1, hd1, h⟩ := h
  rw [Option.bind_eq_some] at h
  obtain ⟨⟨g2, r2⟩, h2, h⟩ := h
  rw [Option.bind_eq_some] at h
  obtain ⟨d2, hd2, h⟩ := h
  rw [Option.bind_eq_some] at h
  obtain ⟨⟨g3, r3⟩, h3, h⟩ := h
  rw [Option.bind_eq_some] at h
  obtain ⟨d3, hd3, h⟩ := h
  rw [Option.bind_eq_some] at h
  obtain ⟨⟨g4, r4⟩, h4, h⟩ := h
  rw [Option.bind_eq_some] at h
  obtain ⟨d4, hd4, h⟩ := h
  rw [Option.map_eq_some'] at h
  obtain ⟨⟨g5, r5⟩, h5, hu⟩ := h
  obtain ⟨hl1, hcs1, hx1⟩ := takeHex_sound _ _ _ _ h1
  have hr1 : r1 = '-' :: d1 := expectDash_sound _ _ hd1
  obtain ⟨hl2, hcs2, hx2⟩ := takeHex_sound _ _ _ _ h2
  have hr2 : r2 = '-' :: d2 := expectDash_sound _ _ hd2
  obtain ⟨hl3, hcs3, hx3⟩ := takeHex_sound _ _ _ _ h3
  have hr3 : r3 = '-' :: d3 := expectDash_sound _ _ hd3
  obtain ⟨hl4, hcs4, hx4⟩ := takeHex_sound _ _ _ _ h4
  have hr4 : r4 = '-' :: d4 := expectDash_sound _ _ hd4
  obtain ⟨hl5, hcs5, hx5⟩ := takeHex_sound _ _ _ _ h5
  dsimp only at hu hcs1 hcs2 hcs3 hcs4 hcs5 hr1 hr2 hr3 hr4
  subst hu hcs1 hcs2 hcs3 hcs4 hcs5 hr1 hr2 hr3 hr4
  refine ⟨r5, ?_, ?_, ?_⟩
  · simp [List.append_assoc]
  · simp only [List.length_append, List.length_cons]
    omega
  · intro c hc
    rcases List.mem_append.mp hc with h | h
    · rcases List.mem_append.mp h with h | h
      · rcases List.mem_append.mp h with h | h
        · rcases List.mem_append.mp h with h | h
          · exact Or.inl (hx1 c h)
          · rcases List.mem_cons.mp h with rfl | h
            · exact Or.inr rfl
            · exact Or.inl (hx2 c h)
        · rcases List.mem_cons.mp h with rfl | h
          · exact Or.inr rfl
          · exact Or.inl (hx3 c h)
      · rcases List.mem_cons.mp h with rfl | h
        · exact Or.inr rfl
        · exact Or.inl (hx4 c h)
    · rcases List.mem_cons.mp h with rfl | h
      · exact Or.inr rfl
      · exact Or.inl (hx5 c h)

theorem List.isPrefixOf_append_self {α : Type} [BEq α] [LawfulBEq α]
    (l t : List α) : l.isPrefixOf (l ++ t) = true := by
  induction l with
  | nil => simp
  | cons a as ih => simp [List.isPrefixOf_cons₂, ih]

theorem uuidAt_complete (g1 g2 g3 g4 g5 r : List Char)
    (h1 : g1.length = 8) (h2 : g2.length = 4) (h3 : g3.length = 4)
    (h4 : g4.length = 4) (h5 : g5.length = 12)
    (hx : ∀ c ∈ g1 ++ g2 ++ g3 ++ g4 ++ g5, isHexChar c = true) :
    uuidAt (g1 ++ ('-' :: (g2 ++ ('-' :: (g3 ++ ('-' :: (g4 ++ ('-' :: (g5 ++ r))))))))) =
      some (g1 ++ ('-' :: (g2 ++ ('-' :: (g3 ++ ('-' :: (g4 ++ ('-' :: g5)))))))) := by
  have hx1 : ∀ c ∈ g1, isHexChar c = true := fun c hc => hx c (by
    simp only [List.mem_append]
    exact Or.inl (Or.inl (Or.inl (Or.inl hc))))
  have hx2 : ∀ c ∈ g2, isHexChar c = true := fun c hc => hx c (by
    simp only [List.mem_append]
    exact Or.inl (Or.inl (Or.inl (Or.inr hc))))
  have hx3 : ∀ c ∈ g3, isHexChar c = true := fun c hc => hx c (by
    simp only [List.mem_append]
    exact Or.inl (Or.inl (Or.inr hc)))
  have hx4 : ∀ c ∈ g4, isHexChar c = true := fun c hc => hx c (by
    simp only [List.mem_append]
    exact Or.inl (Or.inr hc))
  have hx5 : ∀ c ∈ g5, isHexChar c = true := fun c hc => hx c (by
    simp only [List.mem_append]
    exact Or.inr hc)
  have t1 := takeHex_complete g1
    ('-' :: (g2 ++ ('-' :: (g3 ++ ('-' :: (g4 ++ ('-' :: (g5 ++ r)))))))) hx1
  rw [h1] at t1
  have t2 := takeHex_complete g2
    ('-' :: (g3 ++ ('-' :: (g4 ++ ('-' :: (g5 ++ r)))))) hx2
  rw [h2] at t2
  have t3 := takeHex_complete g3 ('-' :: (g4 ++ ('-' :: (g5 ++ r)))) hx3
  rw [h3] at t3
  have t4 := takeHex_complete g4 ('-' :: (g5 ++ r)) hx4
  rw [h4] at t4
  have t5 := takeHex_complete g5 r hx5
  rw [h5] at t5
  unfold uuidAt
  rw [t1]
  simp only [Option.some_bind]
  rw [show expectDash ('-' :: (g2 ++ ('-' :: (g3 ++ ('-' :: (g4 ++ ('-' :: (g5 ++ r)))))))) =
    some (g2 ++ ('-' :: (g3 ++ ('-' :: (g4 ++ ('-' :: (g5 ++ r))))))) from rfl]
  simp only [Option.some_bind]
  rw [t2]
  simp only [Option.some_bind]
  rw [show expectDash ('-' :: (g3 ++ ('-' :: (g4 ++ ('-' :: (g5 ++ r)))))) =
    some (g3 ++ ('-' :: (g4 ++ ('-' :: (g5 ++ r))))) from rfl]
  simp only [Option.some_bind]
  rw [t3]
  simp only [Option.some_bind]
  rw [show expectDash ('-' :: (g4 ++ ('-' :: (g5 ++ r)))) =
    some (g4 ++ ('-' :: (g5 ++ r))) from rfl]
  simp only [Option.some_bind]
  rw [t4]
  simp only [Option.some_bind]
  rw [show expectDash ('-' :: (g5 ++ r)) = some (g5 ++ r) from rfl]
  simp only [Option.some_bind]
  rw [t5]
  simp [List.append_assoc]

theorem markerAt_prepend (x : List Char) :
    markerAt (sentryMarker ++ x) = uuidAt x := by
  unfold markerAt
  rw [if_pos (List.isPrefixOf_append_self sentryMarker x)]
  rw [List.drop_left]

theorem findSentryDbid_complete : ∀ (pre rest u : List Char),
    markerAt rest = some u →
      ∃ w, findSentryDbid (pre ++ rest) = some w := by
  intro pre
  induction pre with
  | nil =>
    intro rest u h
    cases rest with
    | nil =>
      rw [show markerAt [] = none from by decide] at h
      cases h
    | cons c cs =>
      refine ⟨u, ?_⟩
      show findSentryDbid (c :: cs) = some u
      unfold findSentryDbid
      rw [h]
  | cons p pre ih =>
    intro rest u h
    obtain ⟨w, hw⟩ := ih rest u h
    rw [List.cons_append]
    rcases hm : markerAt (p :: (pre ++ rest)) with _ | w2
    · refine ⟨w, ?_⟩
      unfold findSentryDbid
      rw [hm]
      exact hw
    · refine ⟨w2, ?_⟩
      unfold findSentryDbid
      rw [hm]

theorem findSentryDbid_sound : ∀ (cs u : List Char),
    findSentryDbid cs = some u →
      u.length = 36 ∧ ∀ c ∈ u, isHexChar c = true ∨ c = '-' := by
  intro cs
  induction cs with
  | nil =>
    intro u h
    cases h
  | cons c cs ih =>
    intro u h
    unfold findSentryDbid at h
    rcases hm : markerAt (c :: cs) with _ | w
    · rw [hm] at h
      exact ih u h
    · rw [hm] at h
      injection h with h
      subst h
      unfold markerAt at hm
      split at hm
      · obtain ⟨r, _, hlen, hdash⟩ := uuidAt_sound _ _ hm
        exact ⟨hlen, hdash⟩
      · cases hm

theorem lineDebugId_shape_nospace (ws tok : List Char)
    (hws : ∀ c ∈ ws, isJsWhitespace c = true) :
    lineDebugId (ws ++ '/' :: '/' :: '#' :: (debugIdTag ++ tok)) = some tok := by
  unfold lineDebugId
  rw [List.dropWhile_append_of_pos hws, List.dropWhile_cons_of_neg (by decide)]
  show (if debugIdTag.isPrefixOf (debugIdTag ++ tok) = true then
      some ((debugIdTag ++ tok).drop 8) else _) = some tok
  rw [if_pos (List.isPrefixOf_append_self debugIdTag tok)]
  rw [List.drop_left' (by decide : debugIdTag.length = 8)]

theorem lineDebugId_shape_space (ws tok : List Char)
    (hws : ∀ c ∈ ws, isJsWhitespace c = true) :
    lineDebugId (ws ++ '/' :: '/' :: '#' :: ' ' :: (debugIdTag ++ tok)) =
      some tok := by
  unfold lineDebugId
  rw [List.dropWhile_append_of_pos hws, List.dropWhile_cons_of_neg (by decide)]
  have hnp : debugIdTag.isPrefixOf (' ' :: (debugIdTag ++ tok)) = false := by
    rw [show debugIdTag = 'd' :: "ebugId=".data from rfl]
    rw [List.isPrefixOf_cons₂]
    simp
  show (if debugIdTag.isPrefixOf (' ' :: (debugIdTag ++ tok)) = true then _
      else if (isJsWhitespace ' ' && debugIdTag.isPrefixOf (debugIdTag ++ tok)) = true
      then some ((debugIdTag ++ tok).drop 8) else none) = some tok
  rw [if_neg (by rw [hnp]; exact Bool.false_ne_true)]
  rw [if_pos (by rw [List.isPrefixOf_append_self]; decide)]
  rw [List.drop_left' (by decide : debugIdTag.length = 8)]

theorem findDebugIdComment_of_mem (cs L tok : List Char)
    (hL : L ∈ splitLines cs) (htok : lineDebugId L = some tok) :
    ∃ t, findDebugIdComment cs = some t := by
  rcases h : findDebugIdComment cs with _ | t
  · unfold findDebugIdComment at h
    rw [List.findSome?_eq_none_iff] at h
    rw [h L hL] at htok
    cases htok
  · exact ⟨t, rfl⟩

/-! ### UTF-8 and base64 round-trip lemmas -/

theorem utf8Decode_encodeChar (c : Char) (rest : List Nat) :
    utf8Decode (utf8EncodeChar c ++ rest) =
      (utf8Decode rest).map (fun cs => c :: cs) := by
  have hvalid : c.toNat < 0xd800 ∨ (0xdfff < c.toNat ∧ c.toNat < 0x110000) :=
    c.valid
  unfold utf8EncodeChar
  by_cases h1 : c.toNat < 0x80
  · rw [if_pos h1]
    show utf8Decode (c.toNat :: rest) = _
    conv_lhs => unfold utf8Decode
    rw [if_pos h1, Char.ofNat_toNat]
  · rw [if_neg h1]
    by_cases h2 : c.toNat < 0x800
    · rw [if_pos h2]
      show utf8Decode
        ((0xc0 + c.toNat / 64) :: (0x80 + c.toNat % 64) :: rest) = _
      conv_lhs => unfold utf8Decode
      rw [if_neg (by omega), if_neg (by omega), if_pos (by omega)]
      dsimp only
      rw [if_pos (by omega)]
      rw [if_pos (by omega)]
      have hv : (0xc0 + c.toNat / 64 - 0xc0) * 64 + (0x80 + c.toNat % 64 - 0x80) =
          c.toNat := by omega
      rw [hv, Char.ofNat_toNat]
    · rw [if_neg h2]
      by_cases h3 : c.toNat < 0x10000
      · rw [if_pos h3]
        show utf8Decode ((0xe0 + c.toNat / 4096) :: (0x80 + c.toNat / 64 % 64) ::
          (0x80 + c.toNat % 64) :: rest) = _
        conv_lhs => unfold utf8Decode
        rw [if_neg (by omega), if_neg (by omega), if_neg (by omega),
          if_pos (by omega)]
        dsimp only
        rw [if_pos (by omega)]
        rw [if_pos (by omega)]
        have hv : (0xe0 + c.toNat / 4096 - 0xe0) * 4096 +
            (0x80 + c.toNat / 64 % 64 - 0x80) * 64 +
            (0x80 + c.toNat % 64 - 0x80) = c.toNat := by omega
        rw [hv, Char.ofNat_toNat]
      · rw [if_neg h3]
        show utf8Decode ((0xf0 + c.toNat / 0x40000) ::
          (0x80 + c.toNat / 4096 % 64) :: (0x80 + c.toNat / 64 % 64) ::
          (0x80 + c.toNat % 64) :: rest) = _
        conv_lhs => unfold utf8Decode
        rw [if_neg (by omega), if_neg (by omega), if_neg (by omega),
          if_neg (by omega), if_pos (by omega)]
        dsimp only
        rw [if_pos (by omega)]
        rw [if_pos (by omega)]
        have hv : (0xf0 + c.toNat / 0x40000 - 0xf0) * 0x40000 +
            (0x80 + c.toNat / 4096 % 64 - 0x80) * 4096 +
            (0x80 + c.toNat / 64 % 64 - 0x80) * 64 +
            (0x80 + c.toNat % 64 - 0x80) = c.toNat := by omega
        rw [hv, Char.ofNat_toNat]

theorem utf8_roundtrip (cs : List Char) :
    utf8Decode (utf8Encode cs) = some cs := by
  induction cs with
  | nil => rfl
  | cons c cs ih =>
    show utf8Decode (utf8EncodeChar c ++ utf8Encode cs) = _
    rw [utf8Decode_encodeChar, ih]
    rfl

theorem utf8EncodeChar_lt (c : Char) : ∀ b ∈ utf8EncodeChar c, b < 256 := by
  have hvalid : c.toNat < 0xd800 ∨ (0xdfff < c.toNat ∧ c.toNat < 0x110000) :=
    c.valid
  unfold utf8EncodeChar
  by_cases h1 : c.toNat < 0x80
  · rw [if_pos h1]
    intro b hb
    simp only [List.mem_singleton] at hb
    omega
  · rw [if_neg h1]
    by_cases h2 : c.toNat < 0x800
    · rw [if_pos h2]
      intro b hb
      simp only [List.mem_cons, List.not_mem_nil, or_false] at hb
      rcases hb with rfl | rfl <;> omega
    · rw [if_neg h2]
      by_cases h3 : c.toNat < 0x10000
      · rw [if_pos h3]
        intro b hb
        simp only [List.mem_cons, List.not_mem_nil, or_false] at hb
        rcases hb with rfl | rfl | rfl <;> omega
      · rw [if_neg h3]
        intro b hb
        simp only [List.mem_cons, List.not_mem_nil, or_false] at hb
        rcases hb with rfl | rfl | rfl | rfl <;> omega

theorem utf8Encode_lt (cs : List Char) : ∀ b ∈ utf8Encode cs, b < 256 := by
  induction cs with
  | nil => intro b hb; cases hb
  | cons c cs ih =>
    intro b hb
    rcases List.mem_append.mp (show b ∈ utf8EncodeChar c ++ utf8Encode cs from hb)
      with h | h
    · exact utf8EncodeChar_lt c b h
    · exact ih b h

theorem b64Index_b64Char : ∀ k : Nat, k < 64 → b64Index (b64Char k) = some k := by
  decide

theorem b64Char_ne_pad : ∀ k : Nat, k < 64 → ¬(b64Char k = '=') := by
  decide

theorem base64_roundtrip : ∀ (bs : List Nat), (∀ b ∈ bs, b < 256) →
    base64Decode (base64Encode bs) = some bs
  | [], _ => rfl
  | [b], h => by
    have hb : b < 256 := h b (by simp)
    show base64Decode [b64Char (b / 4), b64Char (b % 4 * 16), '=', '='] =
      some [b]
    conv_lhs => unfold base64Decode
    rw [if_pos ⟨rfl, rfl, rfl⟩]
    rw [b64Index_b64Char (b / 4) (by omega)]
    simp only [Option.some_bind]
    rw [b64Index_b64Char (b % 4 * 16) (by omega)]
    simp only [Option.some_bind]
    rw [if_pos (by omega : b % 4 * 16 % 16 = 0)]
    have hv : b / 4 * 4 + b % 4 * 16 / 16 = b := by omega
    rw [hv]
  | [b, c], h => by
    have hb : b < 256 := h b (by simp)
    have hc : c < 256 := h c (by simp)
    show base64Decode [b64Char (b / 4), b64Char (b % 4 * 16 + c / 16),
      b64Char (c % 16 * 4), '='] = some [b, c]
    conv_lhs => unfold base64Decode
    rw [if_neg (fun hcontra => b64Char_ne_pad (c % 16 * 4) (by omega) hcontra.1)]
    rw [if_pos ⟨rfl, rfl⟩]
    rw [b64Index_b64Char (b / 4) (by omega)]
    simp only [Option.some_bind]
    rw [b64Index_b64Char (b % 4 * 16 + c / 16) (by omega)]
    simp only [Option.some_bind]
    rw [b64Index_b64Char (c % 16 * 4) (by omega)]
    simp only [Option.some_bind]
    rw [if_pos (by omega : c % 16 * 4 % 4 = 0)]
    have hv1 : b / 4 * 4 + (b % 4 * 16 + c / 16) / 16 = b := by omega
    have hv2 : (b % 4 * 16 + c / 16) % 16 * 16 + c % 16 * 4 / 4 = c := by omega
    rw [hv1, hv2]
  | b :: c :: d :: rest, h => by
    have hb : b < 256 := h b (by simp)
    have hc : c < 256 := h c (by simp)
    have hd : d < 256 := h d (by simp)
    have ih := base64_roundtrip rest (fun x hx => h x (by simp [hx]))
    show base64Decode (b64Char (b / 4) :: b64Char (b % 4 * 16 + c / 16) ::
      b64Char (c % 16 * 4 + d / 64) :: b64Char (d % 64) ::
      base64Encode rest) = some (b :: c :: d :: rest)
    conv_lhs => unfold base64Decode
    rw [if_neg (fun hcontra =>
      b64Char_ne_pad (c % 16 * 4 + d / 64) (by omega) hcontra.1)]
    rw [if_neg (fun hcontra => b64Char_ne_pad (d % 64) (by omega) hcontra.1)]
    rw [b64Index_b64Char (b / 4) (by omega)]
    simp only [Option.some_bind]
    rw [b64Index_b64Char (b % 4 * 16 + c / 16) (by omega)]
    simp only [Option.some_bind]
    rw [b64Index_b64Char (c % 16 * 4 + d / 64) (by omega)]
    simp only [Option.some_bind]
    rw [b64Index_b64Char (d % 64) (by omega)]
    simp only [Option.some_bind]
    rw [ih]
    have hv1 : b / 4 * 4 + (b % 4 * 16 + c / 16) / 16 = b := by omega
    have hv2 : (b % 4 * 16 + c / 16) % 16 * 16 + (c % 16 * 4 + d / 64) / 4 = c := by
      omega
    have hv3 : (c % 16 * 4 + d / 64) % 4 * 64 + d % 64 = d := by omega
    rw [hv1, hv2, hv3]
    rfl

theorem decodePayload_base64SourceMap (s : String) :
    decodePayloadToText (base64SourceMap s) = some s := by
  unfold decodePayloadToText base64SourceMap
  rw [show (String.mk (base64Encode (utf8Encode s.data))).data =
    base64Encode (utf8Encode s.data) from rfl]
  rw [base64_roundtrip (utf8Encode s.data) (utf8Encode_lt s.data)]
  simp only [Option.some_bind]
  rw [utf8_roundtrip]
  rfl

/-! ### Orchestrator lemmas -/

theorem earlyGates_not_attached (env : Env) (res : Resource) (o : Outcome)
    (h : earlyGates env res = .error o) : ∀ u, o ≠ .attached u := by
  intro u hcontra
  subst hcontra
  unfold earlyGates at h
  repeat' split at h
  all_goals simp_all

theorem lookupStage_not_attached (env : Env) (url : String)
    (ac : LRUCache String LookupJson) (o : Outcome) (lf : List String)
    (h : lookupStage env url ac = .error (o, lf)) : ∀ u, o ≠ .attached u := by
  intro u hcontra
  subst hcontra
  unfold lookupStage at h
  repeat' split at h
  all_goals simp_all

theorem zipStage_not_attached (env : Env) (url : String)
    (zc : LRUCache String ZipFile) (o : Outcome) (zf : List String)
    (h : zipStage env url zc = .error (o, zf)) : ∀ u, o ≠ .attached u := by
  intro u hcontra
  subst hcontra
  unfold zipStage at h
  repeat' split at h
  all_goals simp_all

theorem bundleStage_attaches (env : Env) (buildId : String) (j : LookupJson)
    (zc : LRUCache String ZipFile) :
    (bundleStage env buildId j zc).2.2.2 =
      (match (bundleStage env buildId j zc).1 with
       | .attached u => [u]
       | _ => []) := by
  unfold bundleStage
  split
  · rfl
  · split
    · rfl
    · split
      · next o zf h =>
        have hna := zipStage_not_attached _ _ _ _ _ h
        cases o <;> first | rfl | exact absurd rfl (hna _)
      · split
        · rfl
        · rfl

theorem processResource_attaches (env : Env) (res : Resource) (caches : Caches) :
    (processResource env res caches).attaches =
      (match (processResource env res caches).outcome with
       | .attached u => [u]
       | _ => []) := by
  unfold processResource
  split
  · next o h =>
    have hna := earlyGates_not_attached env res o h
    cases o <;> first | rfl | exact absurd rfl (hna _)
  · next cfg buildId h =>
    split
    · next o lf h2 =>
      have hna := lookupStage_not_attached _ _ _ _ _ h2
      cases o <;> first | rfl | exact absurd rfl (hna _)
    · next jj ac2 lf h2 =>
      split
      · next o zc2 zf att h3 =>
        have hb := bundleStage_attaches env buildId jj caches.zipCache
        rw [h3] at hb
        exact hb

theorem lookupStage_hit (env : Env) (url : String)
    (ac : LRUCache String LookupJson) (j : LookupJson)
    (hwf : ac.WF) (h : ac.lookup url = some j) :
    ∃ ac', lookupStage env url ac = .ok (j, ac', []) ∧ ac'.WF ∧
      ac'.maxSize = ac.maxSize ∧ ac'.lookup url = some j := by
  have hget := LRUCache.get_of_lookup_some ac url j h rfl
  have hwf' := LRUCache.wf_get ac url hwf
  have hmax' := LRUCache.maxSize_get ac url
  have hlook' := LRUCache.lookup_get_self ac url j hwf h rfl
  rw [hget] at hwf' hmax' hlook'
  refine ⟨_, ?_, hwf', hmax', hlook'⟩
  unfold lookupStage
  rw [hget]

theorem lookupStage_miss (env : Env) (url : String)
    (ac : LRUCache String LookupJson) (st : Nat) (j : LookupJson)
    (hwf : ac.WF) (hmax : 1 ≤ ac.maxSize) (h : ac.lookup url = none)
    (hnet : env.lookupNet url = .response st (some j)) :
    lookupStage env url ac = .ok (j, ac.set url j, [url]) ∧
      (ac.set url j).WF ∧ (ac.set url j).maxSize = ac.maxSize ∧
      (ac.set url j).lookup url = some j := by
  refine ⟨?_, LRUCache.wf_set ac url j hwf, LRUCache.maxSize_set ac url j,
    LRUCache.lookup_set_self ac url j hwf hmax⟩
  unfold lookupStage
  rw [LRUCache.get_of_lookup_none ac url h, hnet]

theorem zipStage_hit (env : Env) (url : String)
    (zc : LRUCache String ZipFile) (z : ZipFile)
    (hwf : zc.WF) (h : zc.lookup url = some z) :
    ∃ zc', zipStage env url zc = .ok (z, zc', []) ∧ zc'.WF ∧
      zc'.maxSize = zc.maxSize ∧ zc'.lookup url = some z := by
  have hget := LRUCache.get_of_lookup_some zc url z h rfl
  have hwf' := LRUCache.wf_get zc url hwf
  have hmax' := LRUCache.maxSize_get zc url
  have hlook' := LRUCache.lookup_get_self zc url z hwf h rfl
  rw [hget] at hwf' hmax' hlook'
  refine ⟨_, ?_, hwf', hmax', hlook'⟩
  unfold zipStage
  rw [hget]

theorem zipStage_miss (env : Env) (url : String)
    (zc : LRUCache String ZipFile) (st : Nat) (z : ZipFile)
    (hwf : zc.WF) (hmax : 1 ≤ zc.maxSize) (h : zc.lookup url = none)
    (hnet : env.zipNet url = .response st (some z)) :
    zipStage env url zc = .ok (z, zc.set url z, [url]) ∧
      (zc.set url z).WF ∧ (zc.set url z).maxSize = zc.maxSize ∧
      (zc.set url z).lookup url = some z := by
  refine ⟨?_, LRUCache.wf_set zc url z hwf, LRUCache.maxSize_set zc url z,
    LRUCache.lookup_set_self zc url z hwf hmax⟩
  unfold zipStage
  rw [LRUCache.get_of_lookup_none zc url h, hnet]

/-- Running the bundle stage twice with the same parsed lookup body: the
first run fetches the zip at most once; the second reuses the cache and
fetches nothing, producing the same outcome and the same attach calls. -/
theorem bundleStage_stable (env : Env) (buildId : String) (j : LookupJson)
    (zc : LRUCache String ZipFile) (hwf : zc.WF) (hmax : 1 ≤ zc.maxSize)
    (hzip : ∀ u, ∃ st z, env.zipNet u = .response st (some z)) :
    ∃ o zc2 zf att,
      bundleStage env buildId j zc = (o, zc2, zf, att) ∧ zf.length ≤ 1 ∧
      zc2.WF ∧ zc2.maxSize = zc.maxSize ∧
      ∃ zc3, bundleStage env buildId j zc2 = (o, zc3, [], att) := by
  rcases hfb : j.firstBundle with _ | bundle
  · exact ⟨.noBundle, zc, [], [], by simp [bundleStage, hfb], by simp, hwf, rfl,
      zc, by simp [bundleStage, hfb]⟩
  · rcases hpu : parseUrl bundle.url with _ | parts
    · exact ⟨.badBundleUrl, zc, [], [], by simp [bundleStage, hfb, hpu], by simp,
        hwf, rfl, zc, by simp [bundleStage, hfb, hpu]⟩
    · rcases hzl : zc.lookup ((normalizeZipUrl parts).toUrlString) with _ | z
      · obtain ⟨st, z, hnet⟩ := hzip ((normalizeZipUrl parts).toUrlString)
        obtain ⟨hstage, hwf2, hmax2, hlook2⟩ :=
          zipStage_miss env _ zc st z hwf hmax hzl hnet
        obtain ⟨zc3, hstage2, _, _, _⟩ := zipStage_hit env _ _ z hwf2 hlook2
        rcases hres : resolveMapText env.jsonParse z buildId with f | t
        · exact ⟨.mapFailed f, _, [(normalizeZipUrl parts).toUrlString], [],
            by simp [bundleStage, hfb, hpu, hstage, hres], by simp, hwf2, hmax2,
            zc3, by simp [bundleStage, hfb, hpu, hstage2, hres]⟩
        · exact ⟨.attached (dataUriFor t), _,
            [(normalizeZipUrl parts).toUrlString], [dataUriFor t],
            by simp [bundleStage, hfb, hpu, hstage, hres], by simp, hwf2, hmax2,
            zc3, by simp [bundleStage, hfb, hpu, hstage2, hres]⟩
      · obtain ⟨zc2, hstage, hwf2, hmax2, hlook2⟩ :=
          zipStage_hit env _ zc z hwf hzl
        obtain ⟨zc3, hstage2, _, _, _⟩ := zipStage_hit env _ zc2 z hwf2 hlook2
        rcases hres : resolveMapText env.jsonParse z buildId with f | t
        · exact ⟨.mapFailed f, zc2, [], [],
            by simp [bundleStage, hfb, hpu, hstage, hres], by simp, hwf2, hmax2,
            zc3, by simp [bundleStage, hfb, hpu, hstage2, hres]⟩
        · exact ⟨.attached (dataUriFor t), zc2, [], [dataUriFor t],
            by simp [bundleStage, hfb, hpu, hstage, hres], by simp, hwf2, hmax2,
            zc3, by simp [bundleStage, hfb, hpu, hstage2, hres]⟩

/-- Two sequential runs for the same resource: with well-formed caches of
capacity at least one and remote responses whose JSON/zip payloads parse,
the second run fetches nothing, and repeats the first run's outcome and
attach calls; the first run fetches each endpoint at most once. -/
theorem processResource_second_run (env : Env) (res : Resource)
    (caches : Caches)
    (hwfA : caches.artifactCache.WF) (hwfZ : caches.zipCache.WF)
    (hmaxA : 1 ≤ caches.artifactCache.maxSize)
    (hmaxZ : 1 ≤ caches.zipCache.maxSize)
    (hlookup : ∀ u, ∃ st j, env.lookupNet u = .response st (some j))
    (hzip : ∀ u, ∃ st z, env.zipNet u = .response st (some z)) :
    (processResource env res ((processResource env res caches).caches)).outcome =
        (processResource env res caches).outcome ∧
      (processResource env res
          ((processResource env res caches).caches)).lookupFetches = [] ∧
      (processResource env res
          ((processResource env res caches).caches)).zipFetches = [] ∧
      (processResource env res ((processResource env res caches).caches)).attaches =
        (processResource env res caches).attaches ∧
      (processResource env res caches).lookupFetches.length ≤ 1 ∧
      (processResource env res caches).zipFetches.length ≤ 1 := by
  rcases hEG : earlyGates env res with o | ⟨cfg, buildId⟩
  · simp [processResource, hEG]
  · rcases hal : caches.artifactCache.lookup
        (mkLookupUrl cfg.organization cfg.project buildId) with _ | j
    · obtain ⟨st, j, hnet⟩ :=
        hlookup (mkLookupUrl cfg.organization cfg.project buildId)
      obtain ⟨hstage1, hwfA2, hmaxA2, hlookA2⟩ :=
        lookupStage_miss env _ caches.artifactCache st j hwfA hmaxA hal hnet
      obtain ⟨o, zc2, zf, att, hb1, hzf, hwfZ2, hmaxZ2, zc3, hb2⟩ :=
        bundleStage_stable env buildId j caches.zipCache hwfZ hmaxZ hzip
      obtain ⟨ac3, hstage2, _, _, _⟩ := lookupStage_hit env _ _ j hwfA2 hlookA2
      simp [processResource, hEG, hstage1, hstage2, hb1, hb2, hzf]
    · obtain ⟨ac2, hstage1, hwfA2, hmaxA2, hlookA2⟩ :=
        lookupStage_hit env _ caches.artifactCache j hwfA hal
      obtain ⟨o, zc2, zf, att, hb1, hzf, hwfZ2, hmaxZ2, zc3, hb2⟩ :=
        bundleStage_stable env buildId j caches.zipCache hwfZ hmaxZ hzip
      obtain ⟨ac3, hstage2, _, _, _⟩ := lookupStage_hit env _ ac2 j hwfA2 hlookA2
      simp [processResource, hEG, hstage1, hstage2, hb1, hb2, hzf]

theorem LRUCache.set_empty {K V : Type} [DecidableEq K]
    (N : Nat) (hN : 1 ≤ N) (k : K) (v : V) :
    (⟨N, []⟩ : LRUCache K V).set k v = ⟨N, [(k, v)]⟩ := by
  unfold LRUCache.set
  dsimp only
  rw [List.eraseP_nil, List.nil_append]
  rw [if_neg (by simp only [List.length_cons, List.length_nil]; omega)]

theorem LRUCache.lookup_empty {K V : Type} [DecidableEq K] (N : Nat) (u : K) :
    (⟨N, []⟩ : LRUCache K V).lookup u = none := rfl

theorem LRUCache.lookup_singleton_ne {K V : Type} [DecidableEq K]
    (N : Nat) (k u : K) (v : V) (hne : ¬(k = u)) :
    (⟨N, [(k, v)]⟩ : LRUCache K V).lookup u = none := by
  unfold LRUCache.lookup
  rw [List.find?_cons_of_neg _ (by simpa using hne)]
  rfl

theorem zipStage_fetches (env : Env) (url : String)
    (zc : LRUCache String ZipFile) :
    (∃ z zc', zipStage env url zc = .ok (z, zc', [])) ∨
    (∃ z zc', zipStage env url zc = .ok (z, zc', [url])) ∨
    (∃ o, zipStage env url zc = .error (o, [url])) := by
  unfold zipStage
  split
  · next z zc1 h => exact Or.inl ⟨z, zc1, rfl⟩
  · next zc1 h =>
    split
    · exact Or.inr (Or.inr ⟨_, rfl⟩)
    · exact Or.inr (Or.inr ⟨_, rfl⟩)
    · next st z h2 => exact Or.inr (Or.inl ⟨z, _, rfl⟩)

/-- Within the bundle stage, the only URL ever fetched is the normalized
serialization of the bundle URL — the same string used as the cache key. -/
theorem bundleStage_fetch_is_key (env : Env) (buildId : String)
    (j : LookupJson) (zc : LRUCache String ZipFile) (b : Bundle)
    (parts : UrlParts) (hfb : j.firstBundle = some b)
    (hpu : parseUrl b.url = some parts) :
    (bundleStage env buildId j zc).2.2.1 = [] ∨
    (bundleStage env buildId j zc).2.2.1 =
      [(normalizeZipUrl parts).toUrlString] := by
  rcases zipStage_fetches env ((normalizeZipUrl parts).toUrlString) zc with
    ⟨z, zc', h⟩ | ⟨z, zc', h⟩ | ⟨o, h⟩
  · rcases hres : resolveMapText env.jsonParse z buildId with f | t
    · exact Or.inl (by simp [bundleStage, hfb, hpu, h, hres])
    · exact Or.inl (by simp [bundleStage, hfb, hpu, h, hres])
  · rcases hres : resolveMapText env.jsonParse z buildId with f | t
    · exact Or.inr (by simp [bundleStage, hfb, hpu, h, hres])
    · exact Or.inr (by simp [bundleStage, hfb, hpu, h, hres])
  · exact Or.inr (by simp [bundleStage, hfb, hpu, h])

/-- Two resources with different debug ids whose lookups return bundle URLs
differing only in scheme, host and port: starting from empty caches, the
first run fetches the zip at the normalized URL (which is also the cache
key) and the second run's zip access is a cache hit — no zip fetch. -/
theorem processResource_cross_bundle (env : Env) (res1 res2 : Resource)
    (NA NZ : Nat) (hNA : 1 ≤ NA) (hNZ : 1 ≤ NZ)
    (cfg1 cfg2 : ProjectConfig) (id1 id2 : String)
    (j1 j2 : LookupJson) (b1 b2 : Bundle) (p1 p2 : UrlParts)
    (st1 st2 : Nat)
    (hEG1 : earlyGates env res1 = .ok (cfg1, id1))
    (hEG2 : earlyGates env res2 = .ok (cfg2, id2))
    (hne : ¬(mkLookupUrl cfg1.organization cfg1.project id1 =
      mkLookupUrl cfg2.organization cfg2.project id2))
    (hnet1 : env.lookupNet (mkLookupUrl cfg1.organization cfg1.project id1) =
      .response st1 (some j1))
    (hnet2 : env.lookupNet (mkLookupUrl cfg2.organization cfg2.project id2) =
      .response st2 (some j2))
    (hfb1 : j1.firstBundle = some b1) (hpu1 : parseUrl b1.url = some p1)
    (hfb2 : j2.firstBundle = some b2) (hpu2 : parseUrl b2.url = some p2)
    (hrest : p1.rest = p2.rest)
    (hz1 : ∃ stz z, env.zipNet ((normalizeZipUrl p1).toUrlString) =
      .response stz (some z)) :
    (processResource env res1 ⟨⟨NZ, []⟩, ⟨NA, []⟩⟩).zipFetches =
      [(normalizeZipUrl p1).toUrlString] ∧
    (processResource env res2
      (processResource env res1 ⟨⟨NZ, []⟩, ⟨NA, []⟩⟩).caches).zipFetches =
        [] := by
  have hkey : (normalizeZipUrl p1).toUrlString =
      (normalizeZipUrl p2).toUrlString := by
    simp [normalizeZipUrl, UrlParts.toUrlString, hrest]
  obtain ⟨stz, z, hznet⟩ := hz1
  -- run 1: artifact miss, zip miss
  obtain ⟨hstageA1, hwfA1, hmaxA1, hlookA1⟩ :=
    lookupStage_miss env _ (⟨NA, []⟩ : LRUCache String LookupJson) st1 j1
      (by simp [LRUCache.WF]) (by simpa using hNA) rfl hnet1
  obtain ⟨hstageZ1, hwfZ1, hmaxZ1, hlookZ1⟩ :=
    zipStage_miss env _ (⟨NZ, []⟩ : LRUCache String ZipFile) stz z
      (by simp [LRUCache.WF]) (by simpa using hNZ) rfl hznet
  -- run 2: artifact miss (different key), zip hit (same key)
  have hsetA : (⟨NA, []⟩ : LRUCache String LookupJson).set
      (mkLookupUrl cfg1.organization cfg1.project id1) j1 =
      ⟨NA, [(mkLookupUrl cfg1.organization cfg1.project id1, j1)]⟩ :=
    LRUCache.set_empty NA hNA _ _
  have hlookA2 : ((⟨NA, []⟩ : LRUCache String LookupJson).set
      (mkLookupUrl cfg1.organization cfg1.project id1) j1).lookup
      (mkLookupUrl cfg2.organization cfg2.project id2) = none := by
    rw [hsetA]
    exact LRUCache.lookup_singleton_ne NA _ _ j1 hne
  obtain ⟨hstageA2, hwfA2, hmaxA2, hlookA2'⟩ :=
    lookupStage_miss env _ _ st2 j2 hwfA1 (by rw [hmaxA1]; simpa using hNA)
      hlookA2 hnet2
  have hlookZ2 : ((⟨NZ, []⟩ : LRUCache String ZipFile).set
      ((normalizeZipUrl p1).toUrlString) z).lookup
      ((normalizeZipUrl p2).toUrlString) = some z := by
    rw [← hkey]
    exact hlookZ1
  obtain ⟨zc3, hstageZ2, hwfZ2, hmaxZ2, hlookZ3⟩ :=
    zipStage_hit env _ _ z hwfZ1 hlookZ2
  rcases hres1 : resolveMapText env.jsonParse z id1 with f1 | t1 <;>
    rcases hres2 : resolveMapText env.jsonParse z id2 with f2 | t2 <;>
      constructor <;>
        simp [processResource, hEG1, hEG2, hstageA1, hstageA2, bundleStage,
          hfb1, hpu1, hfb2, hpu2, hstageZ1, hstageZ2, hres1, hres2]

theorem bundleStage_attached (env : Env) (buildId : String) (j : LookupJson)
    (zc : LRUCache String ZipFile) (uri : String)
    (h : (bundleStage env buildId j zc).1 = .attached uri) :
    ∃ z s, resolveMapText env.jsonParse z buildId = .ok s ∧
      uri = dataUriFor s ∧ (bundleStage env buildId j zc).2.2.2 = [uri] := by
  rcases hfb : j.firstBundle with _ | b
  · rw [(by simp [bundleStage, hfb] :
      bundleStage env buildId j zc = (.noBundle, zc, [], []))] at h
    simp at h
  · rcases hpu : parseUrl b.url with _ | parts
    · rw [(by simp [bundleStage, hfb, hpu] :
        bundleStage env buildId j zc = (.badBundleUrl, zc, [], []))] at h
      simp at h
    · rcases hzs : zipStage env ((normalizeZipUrl parts).toUrlString) zc with
        ⟨o, zf⟩ | ⟨z, zc2, zf⟩
      · rw [(by simp [bundleStage, hfb, hpu, hzs] :
          bundleStage env buildId j zc = (o, zc, zf, []))] at h
        simp only at h
        exact absurd h (zipStage_not_attached _ _ _ _ _ hzs uri)
      · rcases hres : resolveMapText env.jsonParse z buildId with f | s
        · rw [(by simp [bundleStage, hfb, hpu, hzs, hres] :
            bundleStage env buildId j zc = (.mapFailed f, zc2, zf, []))] at h
          simp at h
        · have heq : bundleStage env buildId j zc =
              (.attached (dataUriFor s), zc2, zf, [dataUriFor s]) := by
            simp [bundleStage, hfb, hpu, hzs, hres]
          rw [heq] at h
          simp only [Outcome.attached.injEq] at h
          exact ⟨z, s, hres, h.symm, by rw [heq, h]⟩

theorem processResource_attached (env : Env) (res : Resource) (caches : Caches)
    (uri : String)
    (h : (processResource env res caches).outcome = .attached uri) :
    ∃ buildId z s, resolveMapText env.jsonParse z buildId = .ok s ∧
      uri = dataUriFor s ∧ (processResource env res caches).attaches = [uri] := by
  rcases hEG : earlyGates env res with o | ⟨cfg, buildId⟩
  · rw [(by simp [processResource, hEG] :
      processResource env res caches = ⟨o, caches, [], [], []⟩)] at h
    exact absurd h (earlyGates_not_attached env res o hEG uri)
  · rcases hls : lookupStage env (mkLookupUrl cfg.organization cfg.project buildId)
        caches.artifactCache with ⟨o, lf⟩ | ⟨j, ac2, lf⟩
    · rw [(by simp [processResource, hEG, hls] :
        processResource env res caches = ⟨o, caches, lf, [], []⟩)] at h
      exact absurd h (lookupStage_not_attached _ _ _ _ _ hls uri)
    · rcases hB : bundleStage env buildId j caches.zipCache with ⟨o, zc2, zf, att⟩
      have heq : processResource env res caches = ⟨o, ⟨zc2, ac2⟩, lf, zf, att⟩ := by
        simp [processResource, hEG, hls, hB]
      rw [heq] at h
      obtain ⟨z, s, hres, huri, hatt⟩ :=
        bundleStage_attached env buildId j caches.zipCache uri (by rw [hB]; exact h)
      refine ⟨buildId, z, s, hres, huri, ?_⟩
      rw [hB] at hatt
      rw [heq]
      exact hatt

theorem resolveMapText_ok_char (parse : String → Option Manifest) (zip : ZipFile)
    (buildId s : String) (h : resolveMapText parse zip buildId = .ok s) :
    ∃ mc m entry, zip.fileEntry "manifest.json" = some (some mc) ∧ mc ≠ "" ∧
      parse mc = some m ∧ entry ∈ m.files ∧ entry.2.type = "source_map" ∧
      entry.2.debugId = buildId ∧ zip.fileEntry entry.1 = some (some s) ∧
      s ≠ "" := by
  unfold resolveMapText at h
  split at h
  · cases h
  · cases h
  · next mc hmc =>
    split at h
    · cases h
    · next hempty =>
      split at h
      · cases h
      · next m hm =>
        split at h
        · cases h
        · next entry hfind =>
          have hpred := List.find?_some hfind
          have hmem := List.mem_of_find?_eq_some hfind
          simp only [Bool.and_eq_true, beq_iff_eq] at hpred
          split at h
          · cases h
          · cases h
          · next s2 hs2 =>
            split at h
            · cases h
            · next hs2ne =>
              injection h with h
              subst h
              exact ⟨mc, m, entry, hmc, hempty, hm, hmem, hpred.1, hpred.2,
                hs2, hs2ne⟩

/-! ### Concrete scenarios used by witnesses and counterexamples -/

def exampleConfig : ProjectConfig :=
  ⟨"p", "Project", "o", "Org", "https://site.com/*"⟩

def exampleResource : Resource := ⟨"script", some "abc123", none⟩

def exampleLookupUrl : String := mkLookupUrl "o" "p" "abc123"

/-- The two module-level caches start empty with capacity 200. -/
def emptyCaches : Caches := ⟨⟨200, []⟩, ⟨200, []⟩⟩

/-- An environment whose artifact lookup answers HTTP 404 with the JSON
error object the API sends for unknown debug ids. -/
def notFoundEnv : Env :=
  ⟨some "https://site.com/page", some "token", [exampleConfig],
    fun u => if u = exampleLookupUrl then .response 404 (some .other)
      else .netError,
    fun _ => .netError,
    fun _ => none⟩

def netErrEnv : Env :=
  ⟨some "https://site.com/page", some "token", [exampleConfig],
    fun _ => .netError, fun _ => .netError, fun _ => none⟩

def badJsonEnv : Env :=
  ⟨some "https://site.com/page", some "token", [exampleConfig],
    fun _ => .response 500 none, fun _ => .netError, fun _ => none⟩

def emptyOkEnv : Env :=
  ⟨some "https://site.com/page", some "token", [exampleConfig],
    fun _ => .response 200 (some (.arr [])),
    fun _ => .response 200 (some ⟨[]⟩),
    fun _ => none⟩

def noTabEnv : Env :=
  ⟨none, some "token", [exampleConfig],
    fun _ => .netError, fun _ => .netError, fun _ => none⟩

def noTokenEnv : Env :=
  ⟨some "https://site.com/page", none, [exampleConfig],
    fun _ => .netError, fun _ => .netError, fun _ => none⟩

def exampleManifest : Manifest :=
  ⟨[("maps/app.js.map", ⟨"source_map", "abc123"⟩)]⟩

def exampleZip : ZipFile :=
  ⟨[("manifest.json", some "MANIFEST"), ("maps/app.js.map", some "MAPDATA")]⟩

def exampleParse : String → Option Manifest :=
  fun s => if s = "MANIFEST" then some exampleManifest else none

def crossRes1 : Resource := ⟨"script", some "id1", none⟩

def crossRes2 : Resource := ⟨"script", some "id2", none⟩

/-- An internal-routing bundle URL, as the lookup API may return. -/
def crossBundle1 : Bundle := ⟨"http://internal-host:9000/bundle.zip"⟩

/-- A second bundle URL differing from the first only in scheme, host and
port. -/
def crossBundle2 : Bundle := ⟨"https://eu.internal.example:8443/bundle.zip"⟩

def crossParts1 : UrlParts := ⟨"http", "internal-host", "9000", "/bundle.zip"⟩

def crossParts2 : UrlParts :=
  ⟨"https", "eu.internal.example", "8443", "/bundle.zip"⟩

/-- An environment whose lookups for the two debug ids return the two
internal bundle URLs, and whose zip endpoint serves the canonical
`https://sentry.io/bundle.zip`. -/
def crossEnv : Env :=
  ⟨some "https://site.com/page", some "token", [exampleConfig],
    fun u =>
      if u = mkLookupUrl "o" "p" "id1" then
        .response 200 (some (.arr [crossBundle1]))
      else if u = mkLookupUrl "o" "p" "id2" then
        .response 200 (some (.arr [crossBundle2]))
      else .netError,
    fun u =>
      if u = "https://sentry.io/bundle.zip" then
        .response 200 (some exampleZip)
      else .netError,
    exampleParse⟩

/-- An environment whose tab URL matches no stored pattern. -/
def noConfigEnv : Env :=
  ⟨some "https://other.com/page", some "token", [exampleConfig],
    fun _ => .netError, fun _ => .netError, fun _ => none⟩

def styleResource : Resource := ⟨"stylesheet", some "abc123", none⟩

/-- A script with neither a native build id nor content. -/
def blankResource : Resource := ⟨"script", none, none⟩

/-! ### Claims -/

/-- C1: for every bundle archive, requested debug identifier and manifest,
the resolution returns (and the orchestrator attaches) the text of an entry
of the manifest's `files` mapping whose declared type is `"source_map"` and
whose recorded `debug-id` header equals the requested identifier; if the
archive has no `manifest.json` entry, or the manifest fails to parse as
JSON, or no matching entry exists, or the entry's content is unreadable,
the resolution attempt fails and no attach occurs. -/
theorem claim_c1_manifest_resolution :
    (∀ (parse : String → Option Manifest) (zip : ZipFile) (buildId s : String),
      resolveMapText parse zip buildId = .ok s →
      ∃ mc m entry, zip.fileEntry "manifest.json" = some (some mc) ∧
        parse mc = some m ∧ entry ∈ m.files ∧ entry.2.type = "source_map" ∧
        entry.2.debugId = buildId ∧ zip.fileEntry entry.1 = some (some s)) ∧
    (∀ (parse : String → Option Manifest) (zip : ZipFile) (buildId : String),
      zip.fileEntry "manifest.json" = none →
      resolveMapText parse zip buildId = .error .noManifest) ∧
    (∀ (parse : String → Option Manifest) (zip : ZipFile) (buildId mc : String),
      zip.fileEntry "manifest.json" = some (some mc) → mc ≠ "" →
      parse mc = none →
      resolveMapText parse zip buildId = .error .manifestParseError) ∧
    (∀ (parse : String → Option Manifest) (zip : ZipFile) (buildId mc : String)
      (m : Manifest),
      zip.fileEntry "manifest.json" = some (some mc) → mc ≠ "" →
      parse mc = some m →
      (∀ entry ∈ m.files,
        ¬(entry.2.type = "source_map" ∧ entry.2.debugId = buildId)) →
      resolveMapText parse zip buildId = .error .noMatchingMap) ∧
    (∀ (parse : String → Option Manifest) (zip : ZipFile) (buildId mc : String)
      (m : Manifest) (entry : String × ManifestEntry),
      zip.fileEntry "manifest.json" = some (some mc) → mc ≠ "" →
      parse mc = some m →
      m.files.find?
        (fun p => p.2.type == "source_map" && p.2.debugId == buildId) =
          some entry →
      zip.fileEntry entry.1 = some none →
      resolveMapText parse zip buildId = .error .mapReadError) ∧
    (∀ (env : Env) (res : Resource) (caches : Caches) (uri : String),
      (processResource env res caches).outcome = .attached uri →
      ∃ buildId z s, resolveMapText env.jsonParse z buildId = .ok s ∧
        uri = dataUriFor s ∧ (processResource env res caches).attaches = [uri]) ∧
    (∀ (env : Env) (res : Resource) (caches : Caches),
      (∀ uri, (processResource env res caches).outcome ≠ .attached uri) →
      (processResource env res caches).attaches = []) := by
  refine ⟨?_, ?_, ?_, ?_, ?_, ?_, ?_⟩
  · intro parse zip buildId s h
    obtain ⟨mc, m, entry, h1, _, h3, h4, h5, h6, h7, _⟩ :=
      resolveMapText_ok_char parse zip buildId s h
    exact ⟨mc, m, entry, h1, h3, h4, h5, h6, h7⟩
  · intro parse zip buildId h
    unfold resolveMapText
    rw [h]
  · intro parse zip buildId mc h1 h2 h3
    unfold resolveMapText
    rw [h1]
    simp [h2, h3]
  · intro parse zip buildId mc m h1 h2 h3 h4
    have hfind : m.files.find?
        (fun p => p.2.type == "source_map" && p.2.debugId == buildId) = none := by
      rw [List.find?_eq_none]
      intro p hp
      simp only [Bool.and_eq_true, beq_iff_eq]
      exact fun hc => h4 p hp hc
    unfold resolveMapText
    rw [h1]
    simp [if_neg h2, h3, hfind]
  · intro parse zip buildId mc m entry h1 h2 h3 h4 h5
    unfold resolveMapText
    rw [h1]
    simp only [if_neg h2, h3, h4, h5]
  · exact processResource_attached
  · intro env res caches h
    rw [processResource_attaches]
    split
    · next u heq => exact absurd heq (h u)
    · rfl

/-- Witness for C1: a concrete archive, manifest and parser exercising the
success case and the missing-manifest failure. -/
theorem claim_c1_witness :
    (∃ mc m entry, exampleZip.fileEntry "manifest.json" = some (some mc) ∧
      exampleParse mc = some m ∧ entry ∈ m.files ∧
      entry.2.type = "source_map" ∧ entry.2.debugId = "abc123" ∧
      exampleZip.fileEntry entry.1 = some (some "MAPDATA")) ∧
    resolveMapText exampleParse (⟨[]⟩ : ZipFile) "abc123" =
      .error .noManifest ∧
    (processResource noTabEnv exampleResource emptyCaches).attaches = [] :=
  ⟨claim_c1_manifest_resolution.1 exampleParse exampleZip "abc123" "MAPDATA"
      (by rfl),
    claim_c1_manifest_resolution.2.1 exampleParse ⟨[]⟩ "abc123" (by rfl),
    claim_c1_manifest_resolution.2.2.2.2.2.2 noTabEnv exampleResource
      emptyCaches (fun uri h =>
        Outcome.noConfusion
          (show Outcome.noTab = Outcome.attached uri from h))⟩

/-- C2, counterexample: the code never inspects the HTTP status, only
whether `.json()` parses.  With a 404 response whose body is the JSON error
object, the run aborts at the empty-bundle check but the parsed body IS
stored in the lookup cache under the request URL, and a second identical
event performs NO fresh network request. -/
theorem claim_c2_counterexample :
    (processResource notFoundEnv exampleResource emptyCaches).outcome =
        .noBundle ∧
    (processResource notFoundEnv exampleResource emptyCaches).lookupFetches =
        [exampleLookupUrl] ∧
    (processResource notFoundEnv exampleResource
        emptyCaches).caches.artifactCache.lookup exampleLookupUrl =
      some .other ∧
    (processResource notFoundEnv exampleResource
      (processResource notFoundEnv exampleResource
        emptyCaches).caches).lookupFetches = [] := by
  refine ⟨rfl, rfl, rfl, rfl⟩

/-- C2, amended: if the fetch itself rejects (network error) or the
response body fails to parse as JSON, the pipeline aborts, nothing is
stored in the lookup cache, and an identical later event repeats the whole
attempt; but any response whose body parses as JSON — regardless of HTTP
status — is stored in the lookup cache under the request URL. -/
theorem claim_c2_lookup_failures (env : Env) (res : Resource) (caches : Caches)
    (cfg : ProjectConfig) (buildId : String)
    (hEG : earlyGates env res = .ok (cfg, buildId))
    (hmiss : caches.artifactCache.lookup
      (mkLookupUrl cfg.organization cfg.project buildId) = none)
    (hwf : caches.artifactCache.WF)
    (hmax : 1 ≤ caches.artifactCache.maxSize) :
    (env.lookupNet (mkLookupUrl cfg.organization cfg.project buildId) =
        .netError →
      processResource env res caches =
        ⟨.lookupNetError, caches,
          [mkLookupUrl cfg.organization cfg.project buildId], [], []⟩ ∧
      processResource env res ((processResource env res caches).caches) =
        processResource env res caches) ∧
    (∀ st, env.lookupNet (mkLookupUrl cfg.organization cfg.project buildId) =
        .response st none →
      processResource env res caches =
        ⟨.lookupBadJson, caches,
          [mkLookupUrl cfg.organization cfg.project buildId], [], []⟩ ∧
      processResource env res ((processResource env res caches).caches) =
        processResource env res caches) ∧
    (∀ st j, env.lookupNet (mkLookupUrl cfg.organization cfg.project buildId) =
        .response st (some j) →
      (processResource env res
          caches).caches.artifactCache.lookup
        (mkLookupUrl cfg.organization cfg.project buildId) = some j) := by
  have hget := LRUCache.get_of_lookup_none caches.artifactCache _ hmiss
  refine ⟨?_, ?_, ?_⟩
  · intro hnet
    have hstage : lookupStage env
        (mkLookupUrl cfg.organization cfg.project buildId)
        caches.artifactCache =
        .error (.lookupNetError,
          [mkLookupUrl cfg.organization cfg.project buildId]) := by
      unfold lookupStage
      rw [hget, hnet]
    have h1 : processResource env res caches =
        ⟨.lookupNetError, caches,
          [mkLookupUrl cfg.organization cfg.project buildId], [], []⟩ := by
      simp [processResource, hEG, hstage]
    exact ⟨h1, by rw [h1]; exact h1⟩
  · intro st hnet
    have hstage : lookupStage env
        (mkLookupUrl cfg.organization cfg.project buildId)
        caches.artifactCache =
        .error (.lookupBadJson,
          [mkLookupUrl cfg.organization cfg.project buildId]) := by
      unfold lookupStage
      rw [hget, hnet]
    have h1 : processResource env res caches =
        ⟨.lookupBadJson, caches,
          [mkLookupUrl cfg.organization cfg.project buildId], [], []⟩ := by
      simp [processResource, hEG, hstage]
    exact ⟨h1, by rw [h1]; exact h1⟩
  · intro st j hnet
    obtain ⟨hstage, hwf2, hmax2, hlook2⟩ :=
      lookupStage_miss env _ caches.artifactCache st j hwf hmax hmiss hnet
    rcases hB : bundleStage env buildId j caches.zipCache with ⟨o, zc2, zf, att⟩
    have h1 : processResource env res caches = ⟨o, ⟨zc2,
        caches.artifactCache.set
          (mkLookupUrl cfg.organization cfg.project buildId) j⟩,
        [mkLookupUrl cfg.organization cfg.project buildId], zf, att⟩ := by
      simp [processResource, hEG, hstage, hB]
    rw [h1]
    exact hlook2

/-- Witness for C2: the amended behaviour at concrete environments — a
network error is not cached and the retry repeats the attempt; a parsed
body is cached. -/
theorem claim_c2_witness :
    (processResource netErrEnv exampleResource emptyCaches =
        ⟨.lookupNetError, emptyCaches, [exampleLookupUrl], [], []⟩ ∧
      processResource netErrEnv exampleResource
          ((processResource netErrEnv exampleResource emptyCaches).caches) =
        processResource netErrEnv exampleResource emptyCaches) ∧
    (processResource notFoundEnv exampleResource
        emptyCaches).caches.artifactCache.lookup exampleLookupUrl =
      some .other :=
  ⟨(claim_c2_lookup_failures netErrEnv exampleResource emptyCaches
      exampleConfig "abc123" (by rfl) (by rfl) (by simp [LRUCache.WF, emptyCaches])
      (by decide)).1 rfl,
    (claim_c2_lookup_failures notFoundEnv exampleResource emptyCaches
      exampleConfig "abc123" (by rfl) (by rfl) (by simp [LRUCache.WF, emptyCaches])
      (by decide)).2.2 404 .other rfl⟩

/-- C3: extraction order of debug identifiers (lines 118-151).  A native
build-id attribute wins over any content, with the content never examined;
otherwise a `sentry-dbid-<uuid>` marker anywhere in the text yields the
captured uuid (which is 36 characters of hex and dashes); absent that, a
`//# debugId=` magic-comment line (optional leading whitespace, optional
single space after `//#`) yields its token; absent both the result is
`none`.  The last two conjuncts are structural completeness: any text
containing either pattern produces some identifier. -/
theorem claim_c3_extraction_order :
    (∀ b content, extractBuildId (some b) content = some b) ∧
    (extractBuildId none none = none) ∧
    (∀ c u, findSentryDbid c.data = some u →
      extractBuildId none (some c) = some (String.mk u)) ∧
    (∀ c t, findSentryDbid c.data = none → findDebugIdComment c.data = some t →
      extractBuildId none (some c) = some (String.mk t)) ∧
    (∀ c, findSentryDbid c.data = none → findDebugIdComment c.data = none →
      extractBuildId none (some c) = none) ∧
    (∀ cs u, findSentryDbid cs = some u →
      u.length = 36 ∧ ∀ c ∈ u, isHexChar c = true ∨ c = '-') ∧
    (∀ pre g1 g2 g3 g4 g5 r : List Char,
      g1.length = 8 → g2.length = 4 → g3.length = 4 → g4.length = 4 →
      g5.length = 12 →
      (∀ c ∈ g1 ++ g2 ++ g3 ++ g4 ++ g5, isHexChar c = true) →
      ∃ w, findSentryDbid (pre ++ (sentryMarker ++
        (g1 ++ ('-' :: (g2 ++ ('-' :: (g3 ++ ('-' :: (g4 ++
          ('-' :: (g5 ++ r)))))))))) ) = some w) ∧
    (∀ cs ws tok : List Char,
      (ws ++ '/' :: '/' :: '#' :: ' ' :: (debugIdTag ++ tok)) ∈ splitLines cs →
      (∀ c ∈ ws, isJsWhitespace c = true) →
      ∃ t, findDebugIdComment cs = some t) := by
  refine ⟨fun b content => rfl, rfl, ?_, ?_, ?_, findSentryDbid_sound,
    ?_, ?_⟩
  · intro c u h
    have hne : ¬ (c = "") := by
      intro he
      subst he
      exact Option.noConfusion h
    simp [extractBuildId, scanContent, hne, h]
  · intro c t h1 h2
    have hne : ¬ (c = "") := by
      intro he
      subst he
      exact Option.noConfusion h2
    simp [extractBuildId, scanContent, hne, h1, h2]
  · intro c h1 h2
    by_cases hne : c = ""
    · subst hne
      rfl
    · simp [extractBuildId, scanContent, hne, h1, h2]
  · intro pre g1 g2 g3 g4 g5 r h1 h2 h3 h4 h5 hx
    have hm : markerAt (sentryMarker ++
        (g1 ++ ('-' :: (g2 ++ ('-' :: (g3 ++ ('-' :: (g4 ++
          ('-' :: (g5 ++ r)))))))))) =
        some (g1 ++ ('-' :: (g2 ++ ('-' :: (g3 ++ ('-' :: (g4 ++
          ('-' :: g5)))))))) := by
      rw [markerAt_prepend]
      exact uuidAt_complete g1 g2 g3 g4 g5 r h1 h2 h3 h4 h5 hx
    exact findSentryDbid_complete pre _ _ hm
  · intro cs ws tok hmem hws
    exact findDebugIdComment_of_mem cs _ tok hmem
      (lineDebugId_shape_space ws tok hws)

/-- Witness for C3: the precedence chain at concrete inputs — native
attribute beats a conflicting content marker; a `sentry-dbid` marker is
extracted; a `debugId=` comment is extracted when no marker exists; plain
text yields nothing. -/
theorem claim_c3_witness :
    extractBuildId (some "native")
        (some "sentry-dbid-aaaaaaaa-bbbb-cccc-dddd-eeeeeeeeeeee") =
      some "native" ∧
    extractBuildId none
        (some "x sentry-dbid-aaaaaaaa-bbbb-cccc-dddd-eeeeeeeeeeee") =
      some "aaaaaaaa-bbbb-cccc-dddd-eeeeeeeeeeee" ∧
    extractBuildId none (some "  //# debugId=tok123") = some "tok123" ∧
    extractBuildId none (some "plain body") = none :=
  ⟨claim_c3_extraction_order.1 "native" _,
    claim_c3_extraction_order.2.2.1
      "x sentry-dbid-aaaaaaaa-bbbb-cccc-dddd-eeeeeeeeeeee"
      "aaaaaaaa-bbbb-cccc-dddd-eeeeeeeeeeee".data (by decide),
    claim_c3_extraction_order.2.2.2.1 "  //# debugId=tok123"
      "tok123".data (by decide) (by decide),
    claim_c3_extraction_order.2.2.2.2.1 "plain body" (by decide) (by decide)⟩

/-- C4: LRU cache invariants (lines 3-28).  (i) Any sequence of get/set
operations keeps the entry count within `maxSize`.  (ii) Inserting
capacity+1 distinct keys into an empty bound-N cache evicts the first
(least recently accessed) key.  (iii) With the cache full, `get`ting the
oldest key before the (N+1)th insertion refreshes its recency and protects
it from that eviction — the second-oldest key is evicted instead — whereas
without the `get` the oldest key itself is evicted. -/
theorem claim_c4_lru_invariants {K V : Type} [DecidableEq K] [JsFalsy V] :
    (∀ (c : LRUCache K V) (ops : List (CacheOp K V)),
      c.entries.length ≤ c.maxSize →
      (c.applyOps ops).entries.length ≤ c.maxSize) ∧
    (∀ (N : Nat) (k0 : K) (v0 : V) (rest : List (K × V)),
      rest.length = N →
      (((k0, v0) :: rest).map Prod.fst).Nodup →
      ((LRUCache.emptyCache K V N).setAll ((k0, v0) :: rest)).lookup k0 =
        none) ∧
    (∀ (N : Nat) (k0 k1 knew : K) (v0 v1 vnew : V) (rest2 : List (K × V)),
      N = rest2.length + 2 →
      (⟨N, (k0, v0) :: (k1, v1) :: rest2⟩ : LRUCache K V).WF →
      JsFalsy.falsy v0 = false →
      knew ∉ (⟨N, (k0, v0) :: (k1, v1) :: rest2⟩ : LRUCache K V).keys →
      ((((⟨N, (k0, v0) :: (k1, v1) :: rest2⟩ : LRUCache K V).get k0).2).set
          knew vnew).lookup k0 = some v0 ∧
      ((((⟨N, (k0, v0) :: (k1, v1) :: rest2⟩ : LRUCache K V).get k0).2).set
          knew vnew).lookup k1 = none ∧
      ((⟨N, (k0, v0) :: (k1, v1) :: rest2⟩ : LRUCache K V).set knew
          vnew).lookup k0 = none) := by
  refine ⟨?_, ?_, ?_⟩
  · intro c ops h
    exact (LRUCache.applyOps_bound ops c h).1
  · intro N k0 v0 rest hlen hnodup
    have hfresh := LRUCache.setAll_fresh ((k0, v0) :: rest)
      (LRUCache.emptyCache K V N)
      (by intro a _ ha; simp [LRUCache.emptyCache, LRUCache.keys] at ha)
      hnodup (by simp [LRUCache.emptyCache])
    rw [show (LRUCache.emptyCache K V N).entries = [] from rfl] at hfresh
    rw [show (LRUCache.emptyCache K V N).maxSize = N from rfl] at hfresh
    simp only [List.nil_append, List.length_nil, Nat.zero_add,
      List.length_cons, hlen] at hfresh
    rw [show N + 1 - N = 1 from by omega] at hfresh
    rw [hfresh]
    apply LRUCache.lookup_eq_none_of_not_mem
    have hk0 : k0 ∉ rest.map Prod.fst :=
      (List.nodup_cons.mp (by simpa using hnodup)).1
    simpa [LRUCache.keys] using hk0
  · intro N k0 k1 knew v0 v1 vnew rest2 hN hwf hv0 hknew
    have hwf' : (k0 :: k1 :: rest2.map Prod.fst).Nodup := by
      simpa [LRUCache.WF] using hwf
    have hk0k1 : ¬(k0 = k1) := by
      intro he
      exact (List.nodup_cons.mp hwf').1 (he ▸ List.mem_cons_self k1 _)
    have hk0rest : k0 ∉ rest2.map Prod.fst := by
      intro hm
      exact (List.nodup_cons.mp hwf').1 (List.mem_cons_of_mem k1 hm)
    have hk1rest : k1 ∉ rest2.map Prod.fst :=
      (List.nodup_cons.mp ((List.nodup_cons.mp hwf').2)).1
    have hknew' : ¬(knew = k0) ∧ ¬(knew = k1) ∧ knew ∉ rest2.map Prod.fst := by
      simp only [LRUCache.keys, List.map_cons, List.mem_cons, not_or] at hknew
      exact hknew
    -- step 1: the `get` moves (k0, v0) to the most-recent end
    have hlook : (⟨N, (k0, v0) :: (k1, v1) :: rest2⟩ : LRUCache K V).lookup
        k0 = some v0 := by
      unfold LRUCache.lookup
      rw [List.find?_cons_of_pos _ (by simp)]
      rfl
    have hget := LRUCache.get_of_lookup_some
      (⟨N, (k0, v0) :: (k1, v1) :: rest2⟩ : LRUCache K V) k0 v0 hlook hv0
    have hc1 : ((⟨N, (k0, v0) :: (k1, v1) :: rest2⟩ :
        LRUCache K V).get k0).2 =
        ⟨N, (k1, v1) :: (rest2 ++ [(k0, v0)])⟩ := by
      rw [hget]
      dsimp only
      rw [List.eraseP_cons_of_pos (by simp)]
      rfl
    -- step 2: the fresh `set` evicts the now-oldest key k1
    have heraNew : ((k1, v1) :: (rest2 ++ [(k0, v0)])).eraseP
        (fun q => q.1 == knew) = (k1, v1) :: (rest2 ++ [(k0, v0)]) := by
      apply List.eraseP_of_forall_not
      intro p hp
      simp only [List.mem_cons, List.mem_append, List.mem_singleton,
        List.not_mem_nil, or_false] at hp
      simp only [beq_eq_false_iff_ne, ne_eq, beq_iff_eq]
      rcases hp with he | hm | he
      · rw [he]
        intro hk
        exact hknew'.2.1 hk.symm
      · intro hk
        exact hknew'.2.2 (hk ▸ List.mem_map.mpr ⟨p, hm, rfl⟩)
      · rw [he]
        intro hk
        exact hknew'.1 hk.symm
    have hset : ((⟨N, (k1, v1) :: (rest2 ++ [(k0, v0)])⟩ :
        LRUCache K V).set knew vnew) =
        ⟨N, (rest2 ++ [(k0, v0)]) ++ [(knew, vnew)]⟩ := by
      unfold LRUCache.set
      dsimp only
      rw [heraNew, List.cons_append]
      rw [if_pos (by
        simp only [List.length_cons, List.length_append,
          List.length_singleton]
        omega)]
      dsimp only
      rw [List.eraseP_cons_of_pos (by simp)]
    rw [hc1, hset]
    refine ⟨?_, ?_, ?_⟩
    · -- k0 survived: it sits right after rest2
      unfold LRUCache.lookup
      have hrest2none : rest2.find? (fun q => q.1 == k0) = none := by
        rw [List.find?_eq_none]
        intro p hp
        simp only [beq_eq_false_iff_ne, ne_eq, beq_iff_eq]
        intro hk
        exact hk0rest (hk ▸ List.mem_map.mpr ⟨p, hp, rfl⟩)
      rw [List.find?_append, List.find?_append, hrest2none]
      simp [List.find?]
    · -- k1 was evicted
      apply LRUCache.lookup_eq_none_of_not_mem
      intro hm
      simp only [LRUCache.keys, List.map_append, List.mem_append,
        List.map_cons, List.map_nil, List.mem_singleton, List.mem_cons,
        List.not_mem_nil, or_false] at hm
      rcases hm with (hm | he) | he
      · exact hk1rest hm
      · exact hk0k1 he.symm
      · exact hknew'.2.1 he.symm
    · -- without the protecting `get`, k0 itself is evicted
      have heraNew2 : ((k0, v0) :: (k1, v1) :: rest2).eraseP
          (fun q => q.1 == knew) = (k0, v0) :: (k1, v1) :: rest2 := by
        apply List.eraseP_of_forall_not
        intro p hp
        simp only [List.mem_cons] at hp
        simp only [beq_eq_false_iff_ne, ne_eq, beq_iff_eq]
        rcases hp with he | he | hm
        · rw [he]
          intro hk
          exact hknew'.1 hk.symm
        · rw [he]
          intro hk
          exact hknew'.2.1 hk.symm
        · intro hk
          exact hknew'.2.2 (hk ▸ List.mem_map.mpr ⟨p, hm, rfl⟩)
      have hset2 : ((⟨N, (k0, v0) :: (k1, v1) :: rest2⟩ :
          LRUCache K V).set knew vnew) =
          ⟨N, ((k1, v1) :: rest2) ++ [(knew, vnew)]⟩ := by
        unfold LRUCache.set
        dsimp only
        rw [heraNew2, List.cons_append]
        rw [if_pos (by
          simp only [List.length_cons, List.length_append,
            List.length_singleton]
          omega)]
        dsimp only
        rw [List.eraseP_cons_of_pos (by simp)]
      rw [hset2]
      apply LRUCache.lookup_eq_none_of_not_mem
      intro hm
      simp only [LRUCache.keys, List.map_append, List.mem_append,
        List.map_cons, List.mem_cons, List.map_nil, List.mem_singleton,
        List.not_mem_nil, or_false] at hm
      rcases hm with (he | hm) | he
      · exact hk0k1 he
      · exact hk0rest hm
      · exact hknew'.1 he.symm

/-- Witness for C4: a concrete bound-2 string cache — four mixed
operations stay within the bound; three distinct inserts evict the first
key; `get "a"` before inserting `"c"` protects `"a"` (so `"b"` is evicted
instead), while without the `get`, `"a"` itself is evicted. -/
theorem claim_c4_witness :
    ((LRUCache.emptyCache String String 2).applyOps
        [.set "a" "1", .set "b" "2", .get "a", .set "c" "3"]).entries.length
      ≤ 2 ∧
    ((LRUCache.emptyCache String String 2).setAll
        [("a", "1"), ("b", "2"), ("c", "3")]).lookup "a" = none ∧
    ((((⟨2, [("a", "1"), ("b", "2")]⟩ : LRUCache String String).get
        "a").2).set "c" "3").lookup "a" = some "1" ∧
    ((((⟨2, [("a", "1"), ("b", "2")]⟩ : LRUCache String String).get
        "a").2).set "c" "3").lookup "b" = none ∧
    ((⟨2, [("a", "1"), ("b", "2")]⟩ : LRUCache String String).set "c"
        "3").lookup "a" = none := by
  have h3 := claim_c4_lru_invariants.2.2 2 "a" "b" "c" "1" "2" "3" []
    (by decide) (by unfold LRUCache.WF; decide) (by decide)
    (by unfold LRUCache.keys; decide)
  exact ⟨claim_c4_lru_invariants.1 (LRUCache.emptyCache String String 2)
      [.set "a" "1", .set "b" "2", .get "a", .set "c" "3"] (by decide),
    claim_c4_lru_invariants.2.1 2 "a" "1" [("b", "2"), ("c", "3")]
      (by decide) (by decide),
    h3.1, h3.2.1, h3.2.2⟩

/-- C5: cache idempotence of `processResource` (lines 160-189).  With
well-formed caches of positive capacity, and a remote that answers every
request with a parseable body (so the single run in between evicts at most
its own keys and never an intervening one), a first run issues at most one
artifact-lookup fetch and at most one zip fetch, and an identical second
run issues no fetch at all while producing the same outcome and the same
attaches — its results come from the caches populated by the first run. -/
theorem claim_c5_cache_idempotence (env : Env) (res : Resource)
    (caches : Caches)
    (hwfA : caches.artifactCache.WF) (hwfZ : caches.zipCache.WF)
    (hmaxA : 1 ≤ caches.artifactCache.maxSize)
    (hmaxZ : 1 ≤ caches.zipCache.maxSize)
    (hlookup : ∀ u, ∃ st j, env.lookupNet u = .response st (some j))
    (hzip : ∀ u, ∃ st z, env.zipNet u = .response st (some z)) :
    (processResource env res caches).lookupFetches.length ≤ 1 ∧
    (processResource env res caches).zipFetches.length ≤ 1 ∧
    (processResource env res
        ((processResource env res caches).caches)).lookupFetches = [] ∧
    (processResource env res
        ((processResource env res caches).caches)).zipFetches = [] ∧
    (processResource env res
        ((processResource env res caches).caches)).outcome =
      (processResource env res caches).outcome ∧
    (processResource env res
        ((processResource env res caches).caches)).attaches =
      (processResource env res caches).attaches := by
  obtain ⟨ho, hlf, hzf, hatt, hl1, hz1⟩ :=
    processResource_second_run env res caches hwfA hwfZ hmaxA hmaxZ
      hlookup hzip
  exact ⟨hl1, hz1, hlf, hzf, ho, hatt⟩

/-- Witness for C5: a concrete environment whose lookups all answer an
empty bundle array and whose zip endpoint always answers an empty archive;
the idempotence theorem applies at the starting caches. -/
theorem claim_c5_witness :
    (processResource emptyOkEnv exampleResource
        emptyCaches).lookupFetches.length ≤ 1 ∧
    (processResource emptyOkEnv exampleResource
        emptyCaches).zipFetches.length ≤ 1 ∧
    (processResource emptyOkEnv exampleResource
        ((processResource emptyOkEnv exampleResource
          emptyCaches).caches)).lookupFetches = [] ∧
    (processResource emptyOkEnv exampleResource
        ((processResource emptyOkEnv exampleResource
          emptyCaches).caches)).zipFetches = [] ∧
    (processResource emptyOkEnv exampleResource
        ((processResource emptyOkEnv exampleResource
          emptyCaches).caches)).outcome =
      (processResource emptyOkEnv exampleResource emptyCaches).outcome ∧
    (processResource emptyOkEnv exampleResource
        ((processResource emptyOkEnv exampleResource
          emptyCaches).caches)).attaches =
      (processResource emptyOkEnv exampleResource emptyCaches).attaches :=
  claim_c5_cache_idempotence emptyOkEnv exampleResource emptyCaches
    (by unfold LRUCache.WF emptyCaches; decide)
    (by unfold LRUCache.WF emptyCaches; decide)
    (by decide) (by decide)
    (fun u => ⟨200, .arr [], rfl⟩) (fun u => ⟨200, ⟨[]⟩, rfl⟩)

/-- C6, counterexample: pattern characters other than `*` are not escaped
when the regex is built (lines 79-81), so `.` in a wildcard-free pattern
matches any non-line-terminator character rather than itself: `"a."`
matches the different url `"ab"`.  Moreover `"*"` is compiled to `^.*$`,
whose `.` refuses line terminators, so a url containing `"\n"` is NOT
matched by the universal pattern. -/
theorem claim_c6_counterexample :
    ('*' ∉ "a.".data) ∧
    patternMatches "ab" "a." = true ∧
    ("ab" : String) ≠ "a." ∧
    patternMatches "a\nb" "*" = false := by
  refine ⟨by decide, by decide, by decide, by decide⟩

/-- C6, amended: `matches(url, "*")` holds exactly when the url contains no
line terminator (so it is true for every ordinary single-line url); and for
a pattern built only of regex-literal characters (no `*`, and none of the
unescaped metacharacters `. + ? ^ $ ( ) [ ] \x7b \x7d | \\`), the pattern
matches exactly the url equal to it. -/
theorem claim_c6_matches_amended :
    (∀ url : String, patternMatches url "*" = true ↔
      ∀ c ∈ url.data, isLineTermChar c = false) ∧
    (∀ url pattern : String,
      (∀ c ∈ pattern.data, isRegexLiteralChar c = true) →
      (patternMatches url pattern = true ↔ url = pattern)) := by
  constructor
  · intro url
    unfold patternMatches
    exact globMatchAux_star url.data _ (by
      show url.data.length + 2 ≤ ("*" : String).length + url.length + 1
      have h1 : url.length = url.data.length := rfl
      have h2 : ("*" : String).length = 1 := rfl
      omega)
  · intro url pattern hlit
    unfold patternMatches
    have h := globMatchAux_literal pattern.data url.data
      (pattern.length + url.length + 1)
      (by
        have h1 : url.length = url.data.length := rfl
        have h2 : pattern.length = pattern.data.length := rfl
        omega) hlit
    rw [h]
    constructor
    · intro he
      exact (String.ext he).symm
    · intro he
      rw [he]

/-- Witness for C6: the universal pattern accepts a concrete single-line
url; a metacharacter-free pattern accepts exactly itself. -/
theorem claim_c6_witness :
    patternMatches "https://example-host/app" "*" = true ∧
    patternMatches "abc" "abc" = true ∧
    patternMatches "other" "abc" ≠ true := by
  refine ⟨(claim_c6_matches_amended.1 "https://example-host/app").mpr
      (by decide),
    ((claim_c6_matches_amended.2 "abc" "abc") (by decide)).mpr rfl, ?_⟩
  have h := (claim_c6_matches_amended.2 "other" "abc") (by decide)
  exact fun ht => absurd (h.mp ht) (by decide)

/-- C7: bundle-URL normalization (lines 177-189).  The parsed bundle URL is
rewritten to scheme `https`, host `sentry.io` and empty (default) port,
keeping only its path/query part; two URLs differing only in scheme, host
or port therefore normalize to the same string; that one string is the only
URL the bundle stage ever fetches and is also the zip-cache key; hence two
runs whose lookups return bundle URLs agreeing on the path/query part share
the cache entry — the first run fetches the zip once and the second run
performs no zip fetch. -/
theorem claim_c7_url_normalization :
    (∀ parts : UrlParts, normalizeZipUrl parts =
      ⟨"https", "sentry.io", "", parts.rest⟩) ∧
    (∀ p1 p2 : UrlParts, p1.rest = p2.rest →
      (normalizeZipUrl p1).toUrlString = (normalizeZipUrl p2).toUrlString) ∧
    (∀ (env : Env) (buildId : String) (j : LookupJson)
      (zc : LRUCache String ZipFile) (b : Bundle) (parts : UrlParts),
      j.firstBundle = some b → parseUrl b.url = some parts →
      (bundleStage env buildId j zc).2.2.1 = [] ∨
      (bundleStage env buildId j zc).2.2.1 =
        [(normalizeZipUrl parts).toUrlString]) ∧
    (∀ (env : Env) (res1 res2 : Resource) (NA NZ : Nat),
      1 ≤ NA → 1 ≤ NZ →
      ∀ (cfg1 cfg2 : ProjectConfig) (id1 id2 : String)
        (j1 j2 : LookupJson) (b1 b2 : Bundle) (p1 p2 : UrlParts)
        (st1 st2 : Nat),
      earlyGates env res1 = .ok (cfg1, id1) →
      earlyGates env res2 = .ok (cfg2, id2) →
      ¬(mkLookupUrl cfg1.organization cfg1.project id1 =
        mkLookupUrl cfg2.organization cfg2.project id2) →
      env.lookupNet (mkLookupUrl cfg1.organization cfg1.project id1) =
        .response st1 (some j1) →
      env.lookupNet (mkLookupUrl cfg2.organization cfg2.project id2) =
        .response st2 (some j2) →
      j1.firstBundle = some b1 → parseUrl b1.url = some p1 →
      j2.firstBundle = some b2 → parseUrl b2.url = some p2 →
      p1.rest = p2.rest →
      (∃ stz z, env.zipNet ((normalizeZipUrl p1).toUrlString) =
        .response stz (some z)) →
      (processResource env res1 ⟨⟨NZ, []⟩, ⟨NA, []⟩⟩).zipFetches =
        [(normalizeZipUrl p1).toUrlString] ∧
      (processResource env res2
        (processResource env res1 ⟨⟨NZ, []⟩, ⟨NA, []⟩⟩).caches).zipFetches =
          []) := by
  refine ⟨fun parts => rfl, ?_, ?_, ?_⟩
  · intro p1 p2 hrest
    simp [normalizeZipUrl, UrlParts.toUrlString, hrest]
  · intro env buildId j zc b parts hfb hpu
    exact bundleStage_fetch_is_key env buildId j zc b parts hfb hpu
  · intro env res1 res2 NA NZ hNA hNZ cfg1 cfg2 id1 id2 j1 j2 b1 b2 p1 p2
      st1 st2 hEG1 hEG2 hne hnet1 hnet2 hfb1 hpu1 hfb2 hpu2 hrest hz1
    exact processResource_cross_bundle env res1 res2 NA NZ hNA hNZ cfg1 cfg2
      id1 id2 j1 j2 b1 b2 p1 p2 st1 st2 hEG1 hEG2 hne hnet1 hnet2 hfb1 hpu1
      hfb2 hpu2 hrest hz1

/-- Witness for C7: the two concrete internal bundle URLs
`http://internal-host:9000/bundle.zip` and
`https://eu.internal.example:8443/bundle.zip` normalize to the single key
`https://sentry.io/bundle.zip`; the first run fetches it, the second run
hits the cache. -/
theorem claim_c7_witness :
    normalizeZipUrl crossParts1 = ⟨"https", "sentry.io", "", "/bundle.zip"⟩ ∧
    (normalizeZipUrl crossParts1).toUrlString =
      (normalizeZipUrl crossParts2).toUrlString ∧
    (processResource crossEnv crossRes1 ⟨⟨1, []⟩, ⟨1, []⟩⟩).zipFetches =
      [(normalizeZipUrl crossParts1).toUrlString] ∧
    (processResource crossEnv crossRes2
      (processResource crossEnv crossRes1
        ⟨⟨1, []⟩, ⟨1, []⟩⟩).caches).zipFetches = [] := by
  have h := claim_c7_url_normalization.2.2.2 crossEnv crossRes1 crossRes2
    1 1 (by decide) (by decide) exampleConfig exampleConfig "id1" "id2"
    (.arr [crossBundle1]) (.arr [crossBundle2]) crossBundle1 crossBundle2
    crossParts1 crossParts2 200 200 (by rfl) (by rfl) (by decide)
    (by rfl) (by rfl) (by rfl) (by rfl) (by rfl) (by rfl) (by rfl)
    ⟨200, exampleZip, by rfl⟩
  exact ⟨claim_c7_url_normalization.1 crossParts1,
    claim_c7_url_normalization.2.1 crossParts1 crossParts2 rfl,
    h.1, h.2⟩

/-- C8: the attached URI is `data:application/json;base64,` followed by the
base64 of the UTF-8 encoding of the map text (line 231,
`btoa(unescape(encodeURIComponent(...)))`), and decoding that payload —
base64 back to bytes, bytes back through UTF-8 — returns exactly the
original text, for every string of Unicode scalar values. -/
theorem claim_c8_base64_roundtrip (s : String) :
    dataUriFor s = "data:application/json;base64," ++ base64SourceMap s ∧
    decodePayloadToText (base64SourceMap s) = some s :=
  ⟨rfl, decodePayload_base64SourceMap s⟩

/-- Witness for C8: the round trip at a concrete non-ASCII map text. -/
theorem claim_c8_witness :
    dataUriFor "\x7bmappings: héllo → 漢字\x7d" =
      "data:application/json;base64," ++
        base64SourceMap "\x7bmappings: héllo → 漢字\x7d" ∧
    decodePayloadToText (base64SourceMap "\x7bmappings: héllo → 漢字\x7d") =
      some "\x7bmappings: héllo → 漢字\x7d" :=
  claim_c8_base64_roundtrip "\x7bmappings: héllo → 漢字\x7d"

/-- C9: the pipeline (lines 93-236) is a short-circuiting chain of decision
points.  Each early "no" — missing or empty tab URL, missing auth token,
non-script resource, no matching config, no extractable debug id — ends the
run with the corresponding outcome, untouched caches, no fetch on either
endpoint and no attach; the attach list is non-empty exactly on the
`attached` outcome; and an `attached` outcome certifies that every stage
succeeded through map resolution, the attached URI being the data URI of
the resolved map text. -/
theorem claim_c9_short_circuit (env : Env) (res : Resource)
    (caches : Caches) :
    (env.tabUrl = none →
      processResource env res caches = ⟨.noTab, caches, [], [], []⟩) ∧
    (env.tabUrl = some "" →
      processResource env res caches = ⟨.noTab, caches, [], [], []⟩) ∧
    (∀ t, env.tabUrl = some t → ¬(t = "") → env.sentryAuthToken = none →
      processResource env res caches = ⟨.noToken, caches, [], [], []⟩) ∧
    (∀ t tok, env.tabUrl = some t → ¬(t = "") →
      env.sentryAuthToken = some tok → ¬(res.type = "script") →
      processResource env res caches = ⟨.notScript, caches, [], [], []⟩) ∧
    (∀ t tok, env.tabUrl = some t → ¬(t = "") →
      env.sentryAuthToken = some tok → res.type = "script" →
      findMatchingConfigs env.projectConfigs t = [] →
      processResource env res caches = ⟨.noConfig, caches, [], [], []⟩) ∧
    (∀ t tok cfg rest, env.tabUrl = some t → ¬(t = "") →
      env.sentryAuthToken = some tok → res.type = "script" →
      findMatchingConfigs env.projectConfigs t = cfg :: rest →
      extractBuildId res.buildId res.content = none →
      processResource env res caches = ⟨.noBuildId, caches, [], [], []⟩) ∧
    ((processResource env res caches).attaches =
      match (processResource env res caches).outcome with
      | .attached u => [u]
      | _ => []) ∧
    (∀ uri, (processResource env res caches).outcome = .attached uri →
      ∃ buildId z s, resolveMapText env.jsonParse z buildId = .ok s ∧
        uri = dataUriFor s) := by
  refine ⟨?_, ?_, ?_, ?_, ?_, ?_, processResource_attaches env res caches,
    ?_⟩
  · intro h
    simp [processResource, earlyGates, h]
  · intro h
    simp [processResource, earlyGates, h]
  · intro t ht htne htok
    simp [processResource, earlyGates, ht, htne, htok]
  · intro t tok ht htne htok hty
    simp [processResource, earlyGates, ht, htne, htok, hty]
  · intro t tok ht htne htok hty hcfg
    simp [processResource, earlyGates, ht, htne, htok, hty, hcfg]
  · intro t tok cfg rest ht htne htok hty hcfg hex
    simp [processResource, earlyGates, ht, htne, htok, hty, hcfg, hex]
  · intro uri h
    obtain ⟨buildId, z, s, hres, huri, _⟩ :=
      processResource_attached env res caches uri h
    exact ⟨buildId, z, s, hres, huri⟩

/-- Witness for C9: each decision point fails in a concrete scenario with
the documented outcome and no side effect. -/
theorem claim_c9_witness :
    processResource noTabEnv exampleResource emptyCaches =
      ⟨.noTab, emptyCaches, [], [], []⟩ ∧
    processResource noTokenEnv exampleResource emptyCaches =
      ⟨.noToken, emptyCaches, [], [], []⟩ ∧
    processResource notFoundEnv styleResource emptyCaches =
      ⟨.notScript, emptyCaches, [], [], []⟩ ∧
    processResource noConfigEnv exampleResource emptyCaches =
      ⟨.noConfig, emptyCaches, [], [], []⟩ ∧
    processResource notFoundEnv blankResource emptyCaches =
      ⟨.noBuildId, emptyCaches, [], [], []⟩ :=
  ⟨(claim_c9_short_circuit noTabEnv exampleResource emptyCaches).1 rfl,
    (claim_c9_short_circuit noTokenEnv exampleResource emptyCaches).2.2.1
      "https://site.com/page" rfl (by decide) rfl,
    (claim_c9_short_circuit notFoundEnv styleResource emptyCaches).2.2.2.1
      "https://site.com/page" "token" rfl (by decide) rfl (by decide),
    (claim_c9_short_circuit noConfigEnv exampleResource
        emptyCaches).2.2.2.2.1
      "https://other.com/page" "token" rfl (by decide) rfl rfl (by rfl),
    (claim_c9_short_circuit notFoundEnv blankResource
        emptyCaches).2.2.2.2.2.1
      "https://site.com/page" "token" exampleConfig [] rfl (by decide) rfl
      rfl (by rfl) rfl⟩

/-- C10: a native `buildId` attribute equal to `""` suppresses the content
scan — the nullish-coalescing on line 119 keeps the empty string for any
content whatsoever — and the `!resourceBuildId` truthiness check on
line 148 then treats it as absent, ending the run with no lookup fetch, no
zip fetch and no attach, regardless of markers present in the content. -/
theorem claim_c10_empty_buildId (env : Env) (res : Resource)
    (caches : Caches) :
    (∀ content, extractBuildId (some "") content = some "") ∧
    (∀ t tok cfg rest, env.tabUrl = some t → ¬(t = "") →
      env.sentryAuthToken = some tok → res.type = "script" →
      findMatchingConfigs env.projectConfigs t = cfg :: rest →
      res.buildId = some "" →
      processResource env res caches = ⟨.noBuildId, caches, [], [], []⟩) := by
  refine ⟨fun content => rfl, ?_⟩
  intro t tok cfg rest ht htne htok hty hcfg hbid
  have hex : extractBuildId res.buildId res.content = some "" := by
    rw [hbid]
    rfl
  simp [processResource, earlyGates, ht, htne, htok, hty, hcfg, hex]

/-- Witness for C10: a script whose native build id is `""` but whose
content carries a perfectly good `sentry-dbid` marker is still skipped. -/
theorem claim_c10_witness :
    extractBuildId (some "")
        (some "sentry-dbid-aaaaaaaa-bbbb-cccc-dddd-eeeeeeeeeeee") =
      some "" ∧
    processResource notFoundEnv
        ⟨"script", some "",
          some "sentry-dbid-aaaaaaaa-bbbb-cccc-dddd-eeeeeeeeeeee"⟩
        emptyCaches = ⟨.noBuildId, emptyCaches, [], [], []⟩ :=
  ⟨(claim_c10_empty_buildId notFoundEnv
      ⟨"script", some "",
        some "sentry-dbid-aaaaaaaa-bbbb-cccc-dddd-eeeeeeeeeeee"⟩
      emptyCaches).1 _,
    (claim_c10_empty_buildId notFoundEnv
      ⟨"script", some "",
        some "sentry-dbid-aaaaaaaa-bbbb-cccc-dddd-eeeeeeeeeeee"⟩
      emptyCaches).2 "https://site.com/page" "token" exampleConfig [] rfl
      (by decide) rfl rfl (by rfl) rfl⟩
